import Mathlib

/-!
Cosmology utilities of SNANA (sntools_cosmology.c)

Shallow embedding of the numerical kernel of `sntools_cosmology.c` and
proofs of properties of it.

Modelling conventions.

* A C `double` is a real number: every statement is about exact real
  arithmetic.  Rounding is modelled in one place, the product that is
  converted to `int` to give a number of bins (field `fl` of `Env`), and the
  conversion itself is the one to a 32 bit `int`.  The library functions `sin`, `cos`,
  `exp`, `sqrt`, `sinh`, `fabs` are the real functions of the same name,
  `log10` is the logarithm to base ten, `atan2 y x` is the argument of the
  complex number `x + i y`, and `pow x y` is the real power `x ^ y`, which is
  the value of the C function for a positive base and for a natural exponent.
* A call `errmsg(SEV_FATAL, ...)` ends the program; a function that can reach
  one returns `Except Fatal`.  The inversion `zcmb_dLmag_invert` returns a
  `Run`, which also tells a returned number from a returned NaN: `log10` of a
  negative argument is NaN and the loop test is false on it.
* The header `sntools.h` is not part of the sources.  Its constants and the
  external routines called by this file are the fields of `Env`.
-/

noncomputable section

namespace SNANA

open Real

/-! ## Environment: constants and external routines -/

/-- Constants of the header `sntools.h` and external routines used by
`sntools_cosmology.c`.  Neither the header nor the routines are in the
sources, so they are parameters of every function that uses them. -/
structure Env where
  /-- speed of light, km/s -/
  LIGHT_km : ℝ
  /-- one parsec in km -/
  PC_km : ℝ
  /-- the constant named PI -/
  PI : ℝ
  /-- degrees to radians factor -/
  RADIAN : ℝ
  /-- speed of the CMB dipole, km/s -/
  CMBapex_v : ℝ
  /-- galactic longitude of the CMB apex, degrees -/
  CMBapex_l : ℝ
  /-- galactic latitude of the CMB apex, degrees -/
  CMBapex_b : ℝ
  /-- equatorial to galactic rotation `slaEqgal(RA, DEC, &l, &b)`, degrees -/
  slaEqgal : ℝ → ℝ → ℝ × ℝ
  /-- one dimensional interpolation
  `interp_1DFUN(OPT, val, NBIN, VAL_LIST, FUN_LIST, comment)` -/
  interp_1DFUN : ℤ → ℝ → ℤ → List ℝ → List ℝ → ℝ
  /-- rounding of a real to a double.  It is applied where a double product
  is converted to `int`, because there the rounding decides the number of
  bins; elsewhere a double is a real -/
  fl : ℝ → ℝ

/-- The fatal errors raised by `errmsg(SEV_FATAL, ...)` in this file. -/
inductive Fatal where
  /-- init_HzFUN_INFO: first redshift of the map is not zero -/
  | zCMB_min_nonzero
  /-- write_HzFUN_FILE: the output file cannot be opened -/
  | cannot_open_outfile
  /-- zcmb_dLmag_invert: no convergence after 500 iterations -/
  | no_convergence
  /-- zhelio_zcmb_translator: coordSys is none of eq, J2000, gal -/
  | invalid_coordSys
  /-- zhelio_zcmb_translator: OPT is zero -/
  | invalid_OPT
  deriving DecidableEq

/-! ## C library functions -/

/-- The C function `log10`. -/
def log10 (x : ℝ) : ℝ := Real.logb 10 x

/-- The C function `atan2(y, x)`: the angle of the point `(x, y)`. -/
def atan2 (y x : ℝ) : ℝ := Complex.arg ⟨x, y⟩

/-- The C conversion `(int) x` of a double to the 32 bit `int`: truncation
toward zero when the truncated value is in the range of `int`.  C leaves the
conversion of a value out of range undefined; the model takes the result of
the conversion instruction of x86-64, which is `INT_MIN`. -/
def int_cast (x : ℝ) : ℤ :=
  let t : ℤ := if 0 ≤ x then ⌊x⌋ else ⌈x⌉
  if -2147483648 ≤ t ∧ t ≤ 2147483647 then t else -2147483648

/-- The accumulation loop
`sum = 0.0; for (i = 0; i < n; i++) { sum += term(i); }`:
its value after `n` iterations. -/
def sum_loop (term : ℕ → ℝ) : ℕ → ℝ
  | 0 => 0
  | n + 1 => sum_loop term n + term n

/-! ## zhelio_zcmb_translator -/

/-- The local variable `vdotn` of `zhelio_zcmb_translator`: projection of the
CMB velocity on the direction `(ra_gal, dec_gal)`, in units of c. -/
def vdotn (E : Env) (ra_gal dec_gal : ℝ) : ℝ :=
  let ss := sin (E.RADIAN * dec_gal) * sin (E.RADIAN * E.CMBapex_b)
  let c1 := cos (E.RADIAN * dec_gal)
  let c2 := cos (E.RADIAN * E.CMBapex_b)
  let c3 := cos (E.RADIAN * (ra_gal - E.CMBapex_l))
  let ccc := c1 * c2 * c3
  E.CMBapex_v * (ss + ccc) / E.LIGHT_km

/-- The coordinate dispatch of `zhelio_zcmb_translator`: the galactic
coordinates `(ra_gal, dec_gal)` of the input position, or the fatal error for
an unknown coordinate system. -/
def gal_coord (E : Env) (RA DEC : ℝ) (coordSys : String) : Except Fatal (ℝ × ℝ) :=
  if coordSys = "eq" ∨ coordSys = "J2000" then
    .ok (E.slaEqgal RA DEC)
  else if coordSys = "gal" then
    .ok (RA, DEC)
  else
    .error Fatal.invalid_coordSys

/-- Translation of `zhelio_zcmb_translator`. -/
def zhelio_zcmb_translator (E : Env) (z_input RA DEC : ℝ) (coordSys : String)
    (OPT : ℤ) : Except Fatal ℝ :=
  if z_input < 1.0e-10 then .ok z_input
  else
    match gal_coord E RA DEC coordSys with
    | .error e => .error e
    | .ok (ra_gal, dec_gal) =>
      let vdotn := vdotn E ra_gal dec_gal
      let z_out : ℝ := -9.0
      if OPT > 0 then
        .ok ((1 + z_input) / (1 - vdotn) - 1)
      else if OPT < 0 then
        .ok ((1 + z_input) * (1 - vdotn) - 1.0)
      else if OPT = 0 then
        .error Fatal.invalid_OPT
      else
        .ok z_out

/-! ## The H(z) model -/

/-- The array `COSPAR_LIST`, its five entries named after the index constants
`ICOSPAR_HzFUN_H0`, `_OM`, `_OL`, `_w0`, `_wa` of the header. -/
structure COSPAR where
  /-- Hubble constant, km/s/Mpc -/
  H0 : ℝ
  /-- matter density -/
  OM : ℝ
  /-- dark energy density -/
  OL : ℝ
  /-- equation of state today -/
  w0 : ℝ
  /-- equation of state slope -/
  wa : ℝ

/-- The struct `HzFUN_INFO_DEF`: analytic parameters and optional map. -/
structure HzFUN_INFO_DEF where
  /-- cosmology parameters, always stored -/
  COSPAR_LIST : COSPAR
  /-- true when H(z) is interpolated from the map -/
  USE_MAP : Bool
  /-- name of the map file -/
  FILENAME : String
  /-- number of rows of the map -/
  Nzbin_MAP : ℤ
  /-- redshift column of the map -/
  zCMB_MAP : List ℝ
  /-- H(z) column of the map -/
  HzFUN_MAP : List ℝ

/-- The struct `ANISOTROPY_INFO_DEF`: the fields read by this file. -/
structure ANISOTROPY_INFO_DEF where
  /-- true to use the dipole model -/
  USE_FLAG : Bool
  /-- monopole deceleration -/
  qm : ℝ
  /-- dipole deceleration -/
  qd : ℝ
  /-- decay scale of the dipole -/
  S : ℝ
  /-- jerk term -/
  J0 : ℝ
  /-- galactic longitude of the source, degrees -/
  GLON : ℝ
  /-- galactic latitude of the source, degrees -/
  GLAT : ℝ

/-- Translation of `Hzfun_wCDM`: analytic H(z). -/
def Hzfun_wCDM (zCMB : ℝ) (HzFUN_INFO : HzFUN_INFO_DEF) : ℝ :=
  let H0 := HzFUN_INFO.COSPAR_LIST.H0
  let OM := HzFUN_INFO.COSPAR_LIST.OM
  let OL := HzFUN_INFO.COSPAR_LIST.OL
  let w0 := HzFUN_INFO.COSPAR_LIST.w0
  let wa := HzFUN_INFO.COSPAR_LIST.wa
  let KAPPA := 1 - OM - OL
  let ZZ := 1 + zCMB
  let Z2 := ZZ * ZZ
  let Z3 := Z2 * ZZ
  let a := 1 / ZZ
  let argpow := 3 * (1 + w0 + wa)
  let argexp := -3 * wa * zCMB * a
  let ZL := ZZ ^ argpow * exp argexp
  let sqHz := OM * Z3 + KAPPA * Z2 + OL * ZL
  let Hz := H0 * sqrt sqHz
  Hz

/-- Translation of `Hzfun_interp`: linear interpolation of the map. -/
def Hzfun_interp (E : Env) (zCMB : ℝ) (HzFUN_INFO : HzFUN_INFO_DEF) : ℝ :=
  let OPT_INTERP : ℤ := 1
  E.interp_1DFUN OPT_INTERP zCMB HzFUN_INFO.Nzbin_MAP HzFUN_INFO.zCMB_MAP
    HzFUN_INFO.HzFUN_MAP

/-- Translation of `Hzfun`: H(z) from the map or from the analytic form. -/
def Hzfun (E : Env) (zCMB : ℝ) (HzFUN_INFO : HzFUN_INFO_DEF) : ℝ :=
  if HzFUN_INFO.USE_MAP then Hzfun_interp E zCMB HzFUN_INFO
  else Hzfun_wCDM zCMB HzFUN_INFO

/-! ## Hzinv_integral -/

/-- The local variable `Nzbin` of `Hzinv_integral` after its lower clamp. -/
def Hzinv_Nzbin (E : Env) (zmin zmax : ℝ) : ℤ :=
  let Nzbin := int_cast (E.fl ((zmax - zmin) * 1000))
  if Nzbin < 10 then 10 else Nzbin

/-- First half of `Hzinv_integral`: the local variable `sum` after the loop
and after `sum *= (dz * H0)`. -/
def Hzinv_sum (E : Env) (zmin zmax : ℝ) (HzFUN_INFO : HzFUN_INFO_DEF) : ℝ :=
  let H0 := HzFUN_INFO.COSPAR_LIST.H0
  let Nzbin := Hzinv_Nzbin E zmin zmax
  let dz := (zmax - zmin) / (Nzbin : ℝ)
  let sum := sum_loop
    (fun iz =>
      let xz : ℝ := (iz : ℝ)
      let ztmp := zmin + dz * (xz + 0.5)
      let Hz := Hzfun E ztmp HzFUN_INFO
      1 / Hz)
    Nzbin.toNat
  sum * (dz * H0)

/-- Translation of `Hzinv_integral`: the curvature closure applied to the
scaled sum, returned with the factor c / H0. -/
def Hzinv_integral (E : Env) (zmin zmax : ℝ) (HzFUN_INFO : HzFUN_INFO_DEF) : ℝ :=
  let H0 := HzFUN_INFO.COSPAR_LIST.H0
  let OM := HzFUN_INFO.COSPAR_LIST.OM
  let OL := HzFUN_INFO.COSPAR_LIST.OL
  let sum := Hzinv_sum E zmin zmax HzFUN_INFO
  let KAPPA := 1 - OM - OL
  let SQRT_KAPPA := sqrt |KAPPA|
  let Hzinv :=
    if KAPPA < -0.00001 then sin (SQRT_KAPPA * sum) / SQRT_KAPPA
    else if KAPPA > 0.00001 then sinh (SQRT_KAPPA * sum) / SQRT_KAPPA
    else sum
  Hzinv * E.LIGHT_km / H0

/-! ## dLmag and the dipole model -/

/-- Translation of `F_dipole`. -/
def F_dipole (zHEL : ℝ) (ANISOTROPY_INFO : ANISOTROPY_INFO_DEF) : ℝ :=
  let S_dipole := ANISOTROPY_INFO.S
  exp (-zHEL / S_dipole)

/-- Translation of `angular_separation`: separation in degrees between the
source direction and the fixed apex. -/
def angular_separation (E : Env) (ANISOTROPY_INFO : ANISOTROPY_INFO_DEF) : ℝ :=
  let lon1 := ANISOTROPY_INFO.GLON * E.PI / 180
  let lat1 := ANISOTROPY_INFO.GLAT * E.PI / 180
  let lon2 := 264.021 * E.PI / 180
  let lat2 := 48.253 * E.PI / 180
  let dlon := lon2 - lon1
  let dlat := lat2 - lat1
  let a := sin (dlat / 2) ^ (2 : ℝ) + cos lat1 * cos lat2 * sin (dlon / 2) ^ (2 : ℝ)
  let c := 2 * atan2 (sqrt a) (sqrt (1 - a))
  let sep := c * 180 / E.PI
  sep

/-- Translation of `q_dipole`. -/
def q_dipole (E : Env) (zHEL : ℝ) (ANISOTROPY_INFO : ANISOTROPY_INFO_DEF) : ℝ :=
  let qd := ANISOTROPY_INFO.qd
  let qm := ANISOTROPY_INFO.qm
  let sep := angular_separation E ANISOTROPY_INFO
  let q := qm + qd * F_dipole zHEL ANISOTROPY_INFO * cos (sep * E.PI / 180)
  q

/-- Translation of `dLmag`: distance modulus. -/
def dLmag (E : Env) (zCMB zHEL : ℝ) (HzFUN_INFO : HzFUN_INFO_DEF)
    (ANISOTROPY_INFO : ANISOTROPY_INFO_DEF) : ℝ :=
  let zero : ℝ := 0
  let rz := Hzinv_integral E zero zCMB HzFUN_INFO
  let rz := rz * (1.0e6 * E.PC_km)
  let dl := (1 + zHEL) * rz
  let arg := dl / (10 * E.PC_km)
  let mu := 5 * log10 arg
  if ANISOTROPY_INFO.USE_FLAG then
    let H0 := HzFUN_INFO.COSPAR_LIST.H0
    let J0_dipole := ANISOTROPY_INFO.J0
    let dl := (E.LIGHT_km * zHEL / H0) *
      (1 + 1 / 2 * (1 - q_dipole E zHEL ANISOTROPY_INFO) * zHEL -
        (1 / 6) * (1 - q_dipole E zHEL ANISOTROPY_INFO -
          3 * q_dipole E zHEL ANISOTROPY_INFO ^ (2 : ℝ) + J0_dipole) * zHEL ^ (2 : ℝ))
    let arg := dl / (10 * E.PC_km)
    let mu := 5 * log10 arg
    mu
  else
    mu

/-- The angle of the haversine formula as the specification words it, in
radians: a = sin^2(db/2) + cos b1 cos b2 sin^2(dl/2) and
theta = 2 atan2(sqrt a, sqrt (1 - a)), for two directions (l1, b1), (l2, b2)
given in radians. -/
def spec_haversine (l1 b1 l2 b2 : ℝ) : ℝ :=
  let a := sin ((b2 - b1) / 2) ^ 2 + cos b1 * cos b2 * sin ((l2 - l1) / 2) ^ 2
  2 * atan2 (sqrt a) (sqrt (1 - a))

/-! ## Volume element -/

/-- The C conversion `(float) n` of an int.  It is exact up to 2^24; the model
is the value of `n` for every `n`, rounding is not modelled. -/
def float_cast (n : ℤ) : ℝ := (n : ℝ)

/-- Translation of `dVdz`: c r(z)^2 / H(z). -/
def dVdz (E : Env) (z : ℝ) (HzFUN_INFO : HzFUN_INFO_DEF) : ℝ :=
  let zmin : ℝ := 0
  let r := Hzinv_integral E zmin z HzFUN_INFO
  let H := Hzfun E z HzFUN_INFO
  let tmp := E.LIGHT_km * r * r / H
  tmp

/-- The local variable `Nzbin` of `dVdz_integral` after its lower clamp. -/
def dVdz_Nzbin (E : Env) (zmax : ℝ) : ℤ :=
  let Nzbin := int_cast (E.fl (zmax * 1000))
  if Nzbin < 10 then 10 else Nzbin

/-- Translation of `dVdz_integral`: OPT = 1 weights each term by its
redshift, any other OPT by one. -/
def dVdz_integral (E : Env) (OPT : ℤ) (zmax : ℝ) (HzFUN_INFO : HzFUN_INFO_DEF) : ℝ :=
  let Nzbin := dVdz_Nzbin E zmax
  let dz := zmax / float_cast Nzbin
  let sum := sum_loop
    (fun iz =>
      let xz : ℝ := (iz : ℝ)
      let ztmp := dz * (xz + 0.5)
      let tmp := dVdz E ztmp HzFUN_INFO
      let wz : ℝ := if OPT = 1 then ztmp else 1
      wz * tmp)
    Nzbin.toNat
  sum * dz

/-! ## Star formation -/

/-- Translation of `SFRfun_BG03`. -/
def SFRfun_BG03 (z H0 : ℝ) : ℝ :=
  let a : ℝ := 0.0118
  let b : ℝ := 0.08
  let c : ℝ := 3.3
  let d : ℝ := 5.2
  let zc := z / c
  let tmp1 := a + b * z
  let tmp2 := 1 + zc ^ d
  let h := H0 / 100
  let SFRLOC := h * tmp1 / tmp2
  SFRLOC

/-- The local variable `NABIN` of `SFR_integral`. -/
def SFR_NABIN : ℤ := 100

/-- Translation of `SFR_integral`.  The loop `for (ia = 1; ia <= NABIN; ia++)`
runs `NABIN` times; iteration number `k` of `sum_loop` has `ia = k + 1`. -/
def SFR_integral (E : Env) (z : ℝ) (HzFUN_INFO : HzFUN_INFO_DEF) : ℝ :=
  let H0 := HzFUN_INFO.COSPAR_LIST.H0
  let NABIN := SFR_NABIN
  let SECONDS_PER_YEAR : ℝ := 3600 * 24 * 365
  let AMIN : ℝ := 0
  let AMAX := 1 / (1 + z)
  let ABIN := (AMAX - AMIN) / (NABIN : ℝ)
  let sum := sum_loop
    (fun k =>
      let xa : ℝ := ((k + 1 : ℕ) : ℝ)
      let atmp := AMIN + ABIN * (xa - 0.5)
      let ztmp := (1 / atmp) - 1
      let sfr := SFRfun_BG03 ztmp H0
      let aH := atmp * Hzfun E ztmp HzFUN_INFO
      sfr / aH)
    NABIN.toNat
  let tmp := (1.0e6 * E.PC_km) / SECONDS_PER_YEAR
  sum * (ABIN * tmp)

/-! ## zcmb_dLmag_invert -/

/-- External routines of `init_HzFUN_INFO` and the state of the file system
they see.  None of them is in the sources. -/
structure Sys where
  /-- the constant `MXMAP_HzFUN`: capacity of the map -/
  MXMAP_HzFUN : ℤ
  /-- the test `IGNOREFILE(fileName)` -/
  IGNOREFILE : String → Bool
  /-- true when `fopen(outFile, "wt")` returns a file -/
  fopen_wt : String → Bool
  /-- the rows `rd2columnFile(fileName, MXMAP, &N, col1, col2)` reads, after
  the debug write when there is one: the count and the two columns -/
  rd2columnFile : String → ℤ → ℤ × List ℝ × List ℝ

/-- One call `checkval_D(varname, 1, &val, dmin, dmax)`. -/
structure Check where
  /-- label printed with the check -/
  varname : String
  /-- value passed by address -/
  val : ℝ
  /-- lower end of the valid range -/
  dmin : ℝ
  /-- upper end of the valid range -/
  dmax : ℝ

/-- Modelled from the spec: `checkval_D` is not in the sources; the
specification says the range checks of construction are diagnostics that do
not alter the result.  A check reports when its value is outside
`[dmin, dmax]`. -/
def Check.reports (c : Check) : Prop := c.val < c.dmin ∨ c.dmax < c.val

/-- The C test `strstr(s, pat) != NULL`: `pat` occurs in `s`. -/
def strstr_found (s pat : String) : Bool := decide (pat.toList <:+: s.toList)

/-- Translation of `write_HzFUN_FILE`, debug only.  The text written to the
file is not modelled; the struct comes back with `USE_MAP` restored to true,
or the call ends in the fatal error of a failed `fopen`. -/
def write_HzFUN_FILE (S : Sys) (HzFUN_INFO : HzFUN_INFO_DEF) : Except Fatal HzFUN_INFO_DEF :=
  let outFile := HzFUN_INFO.FILENAME
  if S.fopen_wt outFile then
    let HzFUN_INFO := { HzFUN_INFO with USE_MAP := false }
    .ok { HzFUN_INFO with USE_MAP := true }
  else
    .error Fatal.cannot_open_outfile

/-- The map branch of `init_HzFUN_INFO` after the optional debug write: read
the two columns and require the first redshift to be zero.  `zCMB_MAP[0]` is
the head of the column; C leaves it undefined for an empty map. -/
def init_read_map (S : Sys) (fileName : String) (HzFUN_INFO : HzFUN_INFO_DEF) :
    Except Fatal HzFUN_INFO_DEF :=
  let rd := S.rd2columnFile fileName S.MXMAP_HzFUN
  let HzFUN_INFO :=
    { HzFUN_INFO with Nzbin_MAP := rd.1, zCMB_MAP := rd.2.1, HzFUN_MAP := rd.2.2 }
  let zmin := HzFUN_INFO.zCMB_MAP.headD 0
  if zmin ≠ 0 then .error Fatal.zCMB_min_nonzero
  else .ok HzFUN_INFO

/-- Translation of `init_HzFUN_INFO`.  The struct behind the pointer
`HzFUN_INFO` is an argument and comes back updated, together with the calls
of `checkval_D` in the order they are made. -/
def init_HzFUN_INFO (S : Sys) (VBOSE : ℤ) (cosPar : COSPAR) (fileName : String)
    (HzFUN_INFO : HzFUN_INFO_DEF) : Except Fatal (HzFUN_INFO_DEF × List Check) :=
  let HzFUN_INFO := { HzFUN_INFO with COSPAR_LIST := cosPar }
  let HzFUN_INFO := { HzFUN_INFO with Nzbin_MAP := 0 }
  let HzFUN_INFO := { HzFUN_INFO with USE_MAP := !S.IGNOREFILE fileName }
  let WR_OUTFILE := strstr_found fileName "OUT" || strstr_found fileName "out"
  if HzFUN_INFO.USE_MAP then
    let HzFUN_INFO := { HzFUN_INFO with FILENAME := fileName }
    let written : Except Fatal HzFUN_INFO_DEF :=
      if WR_OUTFILE then write_HzFUN_FILE S HzFUN_INFO else .ok HzFUN_INFO
    match written with
    | .error e => .error e
    | .ok HzFUN_INFO =>
      match init_read_map S fileName HzFUN_INFO with
      | .error e => .error e
      | .ok HzFUN_INFO => .ok (HzFUN_INFO, [])
  else
    if VBOSE ≠ 0 then
      let H0 := HzFUN_INFO.COSPAR_LIST.H0
      let OM := HzFUN_INFO.COSPAR_LIST.OM
      let _OL := HzFUN_INFO.COSPAR_LIST.OL
      let wa := HzFUN_INFO.COSPAR_LIST.wa
      .ok (HzFUN_INFO,
        [⟨"H0", H0, 30.0, 100.0⟩, ⟨"OM", OM, 0.0, 1.0⟩, ⟨"OL", OM, 0.0, 1.0⟩,
          ⟨"wa", wa, -3.0, 1.0⟩])
    else
      .ok (HzFUN_INFO, [])

/-- The resolution policy as the specification words it: the number of bins
is max(10, floor(1000 * domain width)). -/
def spec_bins (width : ℝ) : ℤ := max 10 ⌊1000 * width⌋

/-- A sample environment: the speed of light, the parsec, the Planck 2018
dipole, exact pi, the identity in place of the two external routines, and
exact products (no rounding). -/
def sampleEnv : Env where
  LIGHT_km := 299792.458
  PC_km := 3.0856775807e13
  PI := Real.pi
  RADIAN := Real.pi / 180
  CMBapex_v := 369.82
  CMBapex_l := 264.021
  CMBapex_b := 48.253
  slaEqgal := fun ra dec => (ra, dec)
  interp_1DFUN := fun _ val _ _ _ => val
  fl := fun x => x

/-- Analytic model with the given five parameters and no map. -/
def analytic (H0 OM OL w0 wa : ℝ) : HzFUN_INFO_DEF where
  COSPAR_LIST := ⟨H0, OM, OL, w0, wa⟩
  USE_MAP := false
  FILENAME := "NONE"
  Nzbin_MAP := 0
  zCMB_MAP := []
  HzFUN_MAP := []

/-- Flat LambdaCDM sample: H0 = 70, OM = 0.3, OL = 0.7, w0 = -1, wa = 0. -/
def sampleLCDM : HzFUN_INFO_DEF := analytic 70 0.3 0.7 (-1) 0

/-- Sample dipole parameters, the source at galactic (120, -30) degrees. -/
def sampleDipole (flag : Bool) : ANISOTROPY_INFO_DEF where
  USE_FLAG := flag
  qm := -0.5
  qd := -8
  S := 0.03
  J0 := 1
  GLON := 120
  GLAT := -30

/-- Monopole only dipole parameters: qm = -0.55, qd = 0, J0 = 1, model on. -/
def sampleMonopole : ANISOTROPY_INFO_DEF where
  USE_FLAG := true
  qm := -0.55
  qd := 0
  S := 0.03
  J0 := 1
  GLON := 120
  GLAT := -30

/-- A sample file system: the name NONE is ignored, every output file can be
opened, and every map file holds the three rows (0, 70), (0.5, 90),
(1, 120), except the file bad.dat, whose rows start at z = 0.001. -/
def sampleSys : Sys where
  MXMAP_HzFUN := 10000
  IGNOREFILE := fun name => decide (name = "NONE")
  fopen_wt := fun _ => true
  rd2columnFile := fun name _ =>
    if name = "bad.dat" then (3, [0.001, 0.5, 1], [70, 90, 120])
    else (3, [0, 0.5, 1], [70, 90, 120])

/-- The struct passed to init_HzFUN_INFO before it is filled. -/
def blankInfo : HzFUN_INFO_DEF := analytic 0 0 0 0 0

/-- A tabulated model with H0 = 70 and other parameters than the flat sample:
OM = 1, OL = 0.5, w0 = 0, wa = 0.3, and a map of three rows. -/
def sampleMap : HzFUN_INFO_DEF where
  COSPAR_LIST := ⟨70, 1, 0.5, 0, 0.3⟩
  USE_MAP := true
  FILENAME := "map.dat"
  Nzbin_MAP := 3
  zCMB_MAP := [0, 0.5, 1]
  HzFUN_MAP := [70, 90, 120]

/-- A flat analytic model with a steep dark energy term: OM = 0, OL = 1,
w0 = 159997/3, wa = 0, for which H(z) = 70 (1 + z)^80000. -/
def steepModel : HzFUN_INFO_DEF := analytic 70 0 1 (159997 / 3) 0

/-- The guard of the translator: an input below 1e-10 is returned as it is. -/
theorem translator_sentinel_aux (E : Env) (z_input RA DEC : ℝ) (coordSys : String)
    (OPT : ℤ) (h : z_input < 1.0e-10) :
    zhelio_zcmb_translator E z_input RA DEC coordSys OPT = .ok z_input := by
  unfold zhelio_zcmb_translator
  rw [if_pos h]

/-- C2. Sentinel pass-through: an input redshift below 1e-10 is returned
unchanged and without error, for every position, coordinate system label and
direction flag. -/
theorem translator_sentinel (E : Env) (z_input RA DEC : ℝ) (coordSys : String)
    (OPT : ℤ) (h : z_input < 1.0e-10) :
    zhelio_zcmb_translator E z_input RA DEC coordSys OPT = .ok z_input := by
  unfold zhelio_zcmb_translator
  rw [if_pos h]

/-- Witness of C2 at the flag value -9 with an unknown coordinate system and
OPT = 0. -/
theorem translator_sentinel_witness :
    (-9 : ℝ) < 1.0e-10 ∧
    zhelio_zcmb_translator sampleEnv (-9) 10 20 "none" 0 = .ok (-9) :=
  ⟨by norm_num, translator_sentinel sampleEnv (-9) 10 20 "none" 0 (by norm_num)⟩

/-- C3. Exact frame relation: for an input redshift of at least 1e-10 at the
galactic position (l, b) and a nonzero direction flag, the translator returns
a value z_out with 1 + z_out = (1 + z_input) / (1 - vdotn) when OPT > 0 and
1 + z_out = (1 + z_input) * (1 - vdotn) when OPT < 0, where vdotn is
CMBapex_v * (sin b * sin b0 + cos b * cos b0 * cos (l - l0)) / LIGHT_km with
the angles converted from degrees by the factor RADIAN. -/
theorem translator_exact_relation (E : Env) (z_input l b : ℝ) (OPT : ℤ)
    (hz : 1.0e-10 ≤ z_input) (hOPT : OPT ≠ 0) :
    ∃ z_out : ℝ,
      zhelio_zcmb_translator E z_input l b "gal" OPT = .ok z_out ∧
      1 + z_out =
        if 0 < OPT then
          (1 + z_input) /
            (1 - E.CMBapex_v *
              (sin (E.RADIAN * b) * sin (E.RADIAN * E.CMBapex_b) +
                cos (E.RADIAN * b) * cos (E.RADIAN * E.CMBapex_b) *
                  cos (E.RADIAN * (l - E.CMBapex_l))) / E.LIGHT_km)
        else
          (1 + z_input) *
            (1 - E.CMBapex_v *
              (sin (E.RADIAN * b) * sin (E.RADIAN * E.CMBapex_b) +
                cos (E.RADIAN * b) * cos (E.RADIAN * E.CMBapex_b) *
                  cos (E.RADIAN * (l - E.CMBapex_l))) / E.LIGHT_km) := by
  have hz' : ¬ z_input < 1.0e-10 := not_lt.mpr hz
  have hg : gal_coord E l b "gal" = .ok (l, b) := by
    simp [gal_coord]
  rcases lt_or_gt_of_ne hOPT with hneg | hpos
  · have hnp : ¬ OPT > 0 := by omega
    refine ⟨(1 + z_input) * (1 - vdotn E l b) - 1.0, ?_, ?_⟩
    · simp only [zhelio_zcmb_translator, if_neg hz', hg, if_neg hnp, if_pos hneg]
    · have hnp' : ¬ 0 < OPT := by omega
      rw [if_neg hnp']
      simp only [vdotn]
      ring
  · refine ⟨(1 + z_input) / (1 - vdotn E l b) - 1, ?_, ?_⟩
    · simp only [zhelio_zcmb_translator, if_neg hz', hg, if_pos hpos]
    · rw [if_pos hpos]
      simp only [vdotn]
      ring

/-- Witness of C3: redshift 0.5 at the galactic position (10, 20), helio to
CMB. -/
theorem translator_exact_relation_witness :
    (1.0e-10 : ℝ) ≤ 0.5 ∧ (1 : ℤ) ≠ 0 ∧
    ∃ z_out : ℝ,
      zhelio_zcmb_translator sampleEnv 0.5 10 20 "gal" 1 = .ok z_out ∧
      1 + z_out =
        if 0 < (1 : ℤ) then
          (1 + 0.5) /
            (1 - sampleEnv.CMBapex_v *
              (sin (sampleEnv.RADIAN * 20) * sin (sampleEnv.RADIAN * sampleEnv.CMBapex_b) +
                cos (sampleEnv.RADIAN * 20) * cos (sampleEnv.RADIAN * sampleEnv.CMBapex_b) *
                  cos (sampleEnv.RADIAN * (10 - sampleEnv.CMBapex_l))) / sampleEnv.LIGHT_km)
        else
          (1 + 0.5) *
            (1 - sampleEnv.CMBapex_v *
              (sin (sampleEnv.RADIAN * 20) * sin (sampleEnv.RADIAN * sampleEnv.CMBapex_b) +
                cos (sampleEnv.RADIAN * 20) * cos (sampleEnv.RADIAN * sampleEnv.CMBapex_b) *
                  cos (sampleEnv.RADIAN * (10 - sampleEnv.CMBapex_l))) / sampleEnv.LIGHT_km) :=
  ⟨by norm_num, by decide,
    translator_exact_relation sampleEnv 0.5 10 20 1 (by norm_num) (by decide)⟩

/-- C4. Failure condition: the translator ends in a fatal error exactly when
z_input is at least 1e-10 and either coordSys is none of eq, J2000, gal or
OPT is zero; it returns a value exactly in the other cases. -/
theorem translator_fatal_iff (E : Env) (z_input RA DEC : ℝ) (coordSys : String)
    (OPT : ℤ) :
    ((∃ e, zhelio_zcmb_translator E z_input RA DEC coordSys OPT = .error e) ↔
      (1.0e-10 ≤ z_input ∧
        (¬ (coordSys = "eq" ∨ coordSys = "J2000" ∨ coordSys = "gal") ∨ OPT = 0))) ∧
    ((∃ v, zhelio_zcmb_translator E z_input RA DEC coordSys OPT = .ok v) ↔
      ¬ (1.0e-10 ≤ z_input ∧
        (¬ (coordSys = "eq" ∨ coordSys = "J2000" ∨ coordSys = "gal") ∨ OPT = 0))) := by
  by_cases hz : z_input < 1.0e-10
  · have hz' : ¬ (1.0e-10 : ℝ) ≤ z_input := not_le.mpr hz
    simp [zhelio_zcmb_translator, hz, hz']
  · have hz' : (1.0e-10 : ℝ) ≤ z_input := not_lt.mp hz
    by_cases h1 : coordSys = "eq" ∨ coordSys = "J2000"
    · have hcs : coordSys = "eq" ∨ coordSys = "J2000" ∨ coordSys = "gal" := by tauto
      have hg : gal_coord E RA DEC coordSys = .ok (E.slaEqgal RA DEC) := by
        simp [gal_coord, h1]
      rcases lt_trichotomy OPT 0 with hO | hO | hO
      · have h2 : ¬ OPT > 0 := by omega
        have h3 : OPT ≠ 0 := by omega
        simp [zhelio_zcmb_translator, hz, hz', hg, h2, hO, h3, hcs]
      · subst hO
        simp [zhelio_zcmb_translator, hz, hz', hg]
      · have h3 : OPT ≠ 0 := by omega
        simp [zhelio_zcmb_translator, hz, hz', hg, hO, h3, hcs]
    · by_cases h2 : coordSys = "gal"
      · have hcs : coordSys = "eq" ∨ coordSys = "J2000" ∨ coordSys = "gal" := by tauto
        have hg : gal_coord E RA DEC coordSys = .ok (RA, DEC) := by
          simp [gal_coord, h2]
        rcases lt_trichotomy OPT 0 with hO | hO | hO
        · have h4 : ¬ OPT > 0 := by omega
          have h3 : OPT ≠ 0 := by omega
          simp [zhelio_zcmb_translator, hz, hz', hg, h4, hO, h3, hcs]
        · subst hO
          simp [zhelio_zcmb_translator, hz, hz', hg]
        · have h3 : OPT ≠ 0 := by omega
          simp [zhelio_zcmb_translator, hz, hz', hg, hO, h3, hcs]
      · have hcs : ¬ (coordSys = "eq" ∨ coordSys = "J2000" ∨ coordSys = "gal") := by tauto
        have hg : gal_coord E RA DEC coordSys = .error Fatal.invalid_coordSys := by
          simp [gal_coord, h1, h2]
        simp [zhelio_zcmb_translator, hz, hz', hg, hcs]

/-! ### Round trip -/

/-- The sine of the apex latitude of the sample environment lies between
0.536 and 1. -/
theorem sample_sin_apex_bounds :
    (0.536 : ℝ) ≤ sin (Real.pi / 180 * 48.253) ∧ sin (Real.pi / 180 * 48.253) ≤ 1 := by
  refine ⟨?_, sin_le_one _⟩
  have hpi : (0 : ℝ) < Real.pi := Real.pi_pos
  have h0 : (0 : ℝ) ≤ Real.pi / 180 * 48.253 := by positivity
  have h1 : Real.pi / 180 * 48.253 ≤ Real.pi / 2 := by linarith
  have h := Real.mul_le_sin h0 h1
  have h2 : 2 / Real.pi * (Real.pi / 180 * 48.253) = 2 * 48.253 / 180 := by
    field_simp
    ring
  rw [h2] at h
  refine le_trans ?_ h
  norm_num

/-- The projection of the sample environment at the south galactic pole. -/
theorem sample_vdotn_south (RA : ℝ) :
    vdotn sampleEnv RA (-90) =
      -(369.82 * sin (Real.pi / 180 * 48.253) / 299792.458) := by
  have h90 : Real.pi / 180 * (-90 : ℝ) = -(Real.pi / 2) := by ring
  simp only [vdotn, sampleEnv, h90, Real.sin_neg, Real.cos_neg, Real.sin_pi_div_two,
    Real.cos_pi_div_two]
  ring

/-- The projection of the sample environment at the north galactic pole. -/
theorem sample_vdotn_north (RA : ℝ) :
    vdotn sampleEnv RA 90 =
      369.82 * sin (Real.pi / 180 * 48.253) / 299792.458 := by
  have h90 : Real.pi / 180 * (90 : ℝ) = Real.pi / 2 := by ring
  simp only [vdotn, sampleEnv, h90, Real.sin_pi_div_two, Real.cos_pi_div_two]
  ring

/-- C1, counterexample. With the sample environment, the heliocentric
redshift 1e-4 at the south galactic pole translates (OPT = +1) to a negative
CMB redshift; the call back (OPT = -1) takes that value for a flag and returns
it unchanged, so the round trip misses 1e-4 by more than 1e-10. -/
theorem translator_roundtrip_counterexample :
    ∃ z_cmb z_back : ℝ,
      zhelio_zcmb_translator sampleEnv 1.0e-4 0 (-90) "gal" 1 = .ok z_cmb ∧
      zhelio_zcmb_translator sampleEnv z_cmb 0 (-90) "gal" (-1) = .ok z_back ∧
      1.0e-10 < |z_back - 1.0e-4| := by
  have hs := sample_sin_apex_bounds.1
  have hv := sample_vdotn_south 0
  have hg : gal_coord sampleEnv 0 (-90) "gal" = .ok (0, -90) := by
    simp [gal_coord]
  have hz : ¬ ((1.0e-4 : ℝ) < 1.0e-10) := by norm_num
  have hden : (1 : ℝ) + 6.0e-4 ≤ 1 - vdotn sampleEnv 0 (-90) := by
    rw [hv]
    have : (6.0e-4 : ℝ) ≤ 369.82 * sin (Real.pi / 180 * 48.253) / 299792.458 := by
      rw [le_div_iff₀ (by norm_num)]
      nlinarith
    linarith
  have hneg : (1 + 1.0e-4) / (1 - vdotn sampleEnv 0 (-90)) - 1 < (0 : ℝ) := by
    have hpos : (0 : ℝ) < 1 - vdotn sampleEnv 0 (-90) := by linarith
    rw [sub_neg, div_lt_one hpos]
    linarith
  refine ⟨(1 + 1.0e-4) / (1 - vdotn sampleEnv 0 (-90)) - 1,
    (1 + 1.0e-4) / (1 - vdotn sampleEnv 0 (-90)) - 1, ?_, ?_, ?_⟩
  · simp only [zhelio_zcmb_translator, if_neg hz, hg]
    simp
  · apply translator_sentinel_aux
    linarith
  · rw [abs_of_neg (by linarith)]
    linarith

/-- C1, amended. Round trip: at a galactic position whose denominator
1 - vdotn is not zero, if z_helio is below 1e-10 or its translation to the CMB
frame is at least 1e-10, then the call with OPT = +1 returns a value z_cmb and
the call with OPT = -1 on z_cmb at the same position returns exactly z_helio. -/
theorem translator_roundtrip (E : Env) (z_helio RA DEC : ℝ)
    (hden : 1 - vdotn E RA DEC ≠ 0)
    (hguard : z_helio < 1.0e-10 ∨
      1.0e-10 ≤ (1 + z_helio) / (1 - vdotn E RA DEC) - 1) :
    ∃ z_cmb : ℝ,
      zhelio_zcmb_translator E z_helio RA DEC "gal" 1 = .ok z_cmb ∧
      zhelio_zcmb_translator E z_cmb RA DEC "gal" (-1) = .ok z_helio := by
  by_cases hz : z_helio < 1.0e-10
  · exact ⟨z_helio, translator_sentinel_aux E z_helio RA DEC "gal" 1 hz,
      translator_sentinel_aux E z_helio RA DEC "gal" (-1) hz⟩
  · have hc : 1.0e-10 ≤ (1 + z_helio) / (1 - vdotn E RA DEC) - 1 := by
      rcases hguard with h | h
      · exact absurd h hz
      · exact h
    have hg : gal_coord E RA DEC "gal" = .ok (RA, DEC) := by
      simp [gal_coord]
    refine ⟨(1 + z_helio) / (1 - vdotn E RA DEC) - 1, ?_, ?_⟩
    · simp only [zhelio_zcmb_translator, if_neg hz, hg]
      simp
    · have hc' : ¬ ((1 + z_helio) / (1 - vdotn E RA DEC) - 1 < 1.0e-10) := not_lt.mpr hc
      simp only [zhelio_zcmb_translator, if_neg hc', hg]
      simp only [gt_iff_lt, Int.reduceNeg, Int.reduceLT, if_false, if_true]
      congr 1
      field_simp
      norm_num

/-- Witness of C1 amended: redshift 0.5 at the north galactic pole of the
sample environment. -/
theorem translator_roundtrip_witness :
    (1 - vdotn sampleEnv 0 90 ≠ 0) ∧
    ((0.5 : ℝ) < 1.0e-10 ∨ 1.0e-10 ≤ (1 + 0.5) / (1 - vdotn sampleEnv 0 90) - 1) ∧
    ∃ z_cmb : ℝ,
      zhelio_zcmb_translator sampleEnv 0.5 0 90 "gal" 1 = .ok z_cmb ∧
      zhelio_zcmb_translator sampleEnv z_cmb 0 90 "gal" (-1) = .ok 0.5 := by
  have hs := sample_sin_apex_bounds
  have hv := sample_vdotn_north 0
  have hlo : (0 : ℝ) ≤ vdotn sampleEnv 0 90 := by
    rw [hv]
    have := hs.1
    positivity
  have hhi : vdotn sampleEnv 0 90 ≤ 0.002 := by
    rw [hv, div_le_iff₀ (by norm_num)]
    have := hs.2
    nlinarith
  have hden : 1 - vdotn sampleEnv 0 90 ≠ 0 := by
    intro h
    linarith
  have hguard : (0.5 : ℝ) < 1.0e-10 ∨
      1.0e-10 ≤ (1 + 0.5) / (1 - vdotn sampleEnv 0 90) - 1 := by
    right
    have hpos : (0 : ℝ) < 1 - vdotn sampleEnv 0 90 := by linarith
    rw [le_sub_iff_add_le, le_div_iff₀ hpos]
    nlinarith
  exact ⟨hden, hguard, translator_roundtrip sampleEnv 0.5 0 90 hden hguard⟩

/-! ### Analytic H(z) -/

/-- The analytic H(z) written with powers of 1 + z. -/
theorem Hzfun_wCDM_eq (z : ℝ) (I : HzFUN_INFO_DEF) :
    Hzfun_wCDM z I =
      I.COSPAR_LIST.H0 *
        sqrt (I.COSPAR_LIST.OM * (1 + z) ^ 3 +
          (1 - I.COSPAR_LIST.OM - I.COSPAR_LIST.OL) * (1 + z) ^ 2 +
          I.COSPAR_LIST.OL * (1 + z) ^ (3 * (1 + I.COSPAR_LIST.w0 + I.COSPAR_LIST.wa)) *
            exp (-3 * I.COSPAR_LIST.wa * z / (1 + z))) := by
  simp only [Hzfun_wCDM]
  congr 2
  have h : -3 * I.COSPAR_LIST.wa * z * (1 / (1 + z)) = -3 * I.COSPAR_LIST.wa * z / (1 + z) := by
    ring
  rw [h]
  ring

/-- For w0 = -1 and wa = 0 the dark energy term of the analytic H(z) is the
constant OL; the curvature term stays. -/
theorem Hzfun_wCDM_Lambda (z : ℝ) (I : HzFUN_INFO_DEF)
    (hw0 : I.COSPAR_LIST.w0 = -1) (hwa : I.COSPAR_LIST.wa = 0) :
    Hzfun_wCDM z I =
      I.COSPAR_LIST.H0 *
        sqrt (I.COSPAR_LIST.OM * (1 + z) ^ 3 +
          (1 - I.COSPAR_LIST.OM - I.COSPAR_LIST.OL) * (1 + z) ^ 2 +
          I.COSPAR_LIST.OL) := by
  rw [Hzfun_wCDM_eq, hw0, hwa]
  have h1 : (3 : ℝ) * (1 + -1 + 0) = 0 := by norm_num
  have h2 : -3 * (0 : ℝ) * z / (1 + z) = 0 := by simp
  rw [h1, h2, Real.rpow_zero, Real.exp_zero]
  simp

/-- C5. Analytic H(z): for z > -1 the function Hzfun_wCDM, and Hzfun when
USE_MAP is false, return H0 * sqrt(OM (1+z)^3 + (1-OM-OL) (1+z)^2 +
OL (1+z)^(3(1+w0+wa)) exp(-3 wa z / (1+z))). -/
theorem Hzfun_analytic (E : Env) (z : ℝ) (I : HzFUN_INFO_DEF) (hz : -1 < z)
    (hmap : I.USE_MAP = false) :
    Hzfun_wCDM z I =
      I.COSPAR_LIST.H0 *
        sqrt (I.COSPAR_LIST.OM * (1 + z) ^ 3 +
          (1 - I.COSPAR_LIST.OM - I.COSPAR_LIST.OL) * (1 + z) ^ 2 +
          I.COSPAR_LIST.OL * (1 + z) ^ (3 * (1 + I.COSPAR_LIST.w0 + I.COSPAR_LIST.wa)) *
            exp (-3 * I.COSPAR_LIST.wa * z / (1 + z))) ∧
    Hzfun E z I =
      I.COSPAR_LIST.H0 *
        sqrt (I.COSPAR_LIST.OM * (1 + z) ^ 3 +
          (1 - I.COSPAR_LIST.OM - I.COSPAR_LIST.OL) * (1 + z) ^ 2 +
          I.COSPAR_LIST.OL * (1 + z) ^ (3 * (1 + I.COSPAR_LIST.w0 + I.COSPAR_LIST.wa)) *
            exp (-3 * I.COSPAR_LIST.wa * z / (1 + z))) := by
  have _hbase : 0 < 1 + z := by linarith
  refine ⟨Hzfun_wCDM_eq z I, ?_⟩
  simp only [Hzfun, hmap]
  exact Hzfun_wCDM_eq z I

/-- Witness of C5: the model H0 = 70, OM = 0.3, OL = 0.6, w0 = -0.9,
wa = 0.2 at z = 0.5. -/
theorem Hzfun_analytic_witness :
    (-1 : ℝ) < 0.5 ∧ (analytic 70 0.3 0.6 (-0.9) 0.2).USE_MAP = false ∧
    (Hzfun_wCDM 0.5 (analytic 70 0.3 0.6 (-0.9) 0.2) =
      (analytic 70 0.3 0.6 (-0.9) 0.2).COSPAR_LIST.H0 *
        sqrt ((analytic 70 0.3 0.6 (-0.9) 0.2).COSPAR_LIST.OM * (1 + 0.5) ^ 3 +
          (1 - (analytic 70 0.3 0.6 (-0.9) 0.2).COSPAR_LIST.OM -
              (analytic 70 0.3 0.6 (-0.9) 0.2).COSPAR_LIST.OL) * (1 + 0.5) ^ 2 +
          (analytic 70 0.3 0.6 (-0.9) 0.2).COSPAR_LIST.OL *
            (1 + 0.5) ^ (3 * (1 + (analytic 70 0.3 0.6 (-0.9) 0.2).COSPAR_LIST.w0 +
              (analytic 70 0.3 0.6 (-0.9) 0.2).COSPAR_LIST.wa)) *
            exp (-3 * (analytic 70 0.3 0.6 (-0.9) 0.2).COSPAR_LIST.wa * 0.5 / (1 + 0.5))) ∧
    Hzfun sampleEnv 0.5 (analytic 70 0.3 0.6 (-0.9) 0.2) =
      (analytic 70 0.3 0.6 (-0.9) 0.2).COSPAR_LIST.H0 *
        sqrt ((analytic 70 0.3 0.6 (-0.9) 0.2).COSPAR_LIST.OM * (1 + 0.5) ^ 3 +
          (1 - (analytic 70 0.3 0.6 (-0.9) 0.2).COSPAR_LIST.OM -
              (analytic 70 0.3 0.6 (-0.9) 0.2).COSPAR_LIST.OL) * (1 + 0.5) ^ 2 +
          (analytic 70 0.3 0.6 (-0.9) 0.2).COSPAR_LIST.OL *
            (1 + 0.5) ^ (3 * (1 + (analytic 70 0.3 0.6 (-0.9) 0.2).COSPAR_LIST.w0 +
              (analytic 70 0.3 0.6 (-0.9) 0.2).COSPAR_LIST.wa)) *
            exp (-3 * (analytic 70 0.3 0.6 (-0.9) 0.2).COSPAR_LIST.wa * 0.5 / (1 + 0.5)))) :=
  ⟨by norm_num, rfl,
    Hzfun_analytic sampleEnv 0.5 (analytic 70 0.3 0.6 (-0.9) 0.2) (by norm_num) rfl⟩

/-- C6, counterexample. For the open model H0 = 70, OM = 0.3, OL = 0.5 with
w0 = -1, wa = 0 the analytic H(1) is 70 sqrt(3.7), not
70 sqrt(0.3 * 2^3 + 0.5) = 70 sqrt(2.9): the curvature term does not vanish. -/
theorem Hzfun_LCDM_counterexample :
    Hzfun_wCDM 1 (analytic 70 0.3 0.5 (-1) 0) = 70 * sqrt 3.7 ∧
    Hzfun_wCDM 1 (analytic 70 0.3 0.5 (-1) 0) ≠ 70 * sqrt (0.3 * (1 + 1) ^ 3 + 0.5) := by
  have h : Hzfun_wCDM 1 (analytic 70 0.3 0.5 (-1) 0) = 70 * sqrt 3.7 := by
    rw [Hzfun_wCDM_Lambda 1 _ rfl rfl]
    simp only [analytic]
    norm_num
  refine ⟨h, ?_⟩
  rw [h]
  intro heq
  have h70 : (70 : ℝ) ≠ 0 := by norm_num
  have h2 := mul_left_cancel₀ h70 heq
  have h3 : (0.3 : ℝ) * (1 + 1) ^ 3 + 0.5 = 2.9 := by norm_num
  rw [h3, Real.sqrt_inj (by norm_num) (by norm_num)] at h2
  norm_num at h2

/-- C6, amended. LambdaCDM reduction for flat models: for w0 = -1, wa = 0 and
OM + OL = 1, for every H0 and every z > -1 (in particular z = 0, 0.5, 1, 2),
Hzfun_wCDM returns H0 * sqrt(OM (1+z)^3 + OL). -/
theorem Hzfun_LCDM_flat (z : ℝ) (I : HzFUN_INFO_DEF)
    (hw0 : I.COSPAR_LIST.w0 = -1) (hwa : I.COSPAR_LIST.wa = 0)
    (hflat : I.COSPAR_LIST.OM + I.COSPAR_LIST.OL = 1) (hz : -1 < z) :
    Hzfun_wCDM z I =
      I.COSPAR_LIST.H0 * sqrt (I.COSPAR_LIST.OM * (1 + z) ^ 3 + I.COSPAR_LIST.OL) := by
  have _hbase : 0 < 1 + z := by linarith
  rw [Hzfun_wCDM_Lambda z I hw0 hwa]
  have hk : 1 - I.COSPAR_LIST.OM - I.COSPAR_LIST.OL = 0 := by linarith
  rw [hk]
  simp

/-- Witness of C6 amended: the flat sample model at z = 2. -/
theorem Hzfun_LCDM_flat_witness :
    sampleLCDM.COSPAR_LIST.w0 = -1 ∧ sampleLCDM.COSPAR_LIST.wa = 0 ∧
    sampleLCDM.COSPAR_LIST.OM + sampleLCDM.COSPAR_LIST.OL = 1 ∧ (-1 : ℝ) < 2 ∧
    Hzfun_wCDM 2 sampleLCDM =
      sampleLCDM.COSPAR_LIST.H0 *
        sqrt (sampleLCDM.COSPAR_LIST.OM * (1 + 2) ^ 3 + sampleLCDM.COSPAR_LIST.OL) :=
  ⟨rfl, rfl, by simp only [sampleLCDM, analytic]; norm_num, by norm_num,
    Hzfun_LCDM_flat 2 sampleLCDM rfl rfl (by simp only [sampleLCDM, analytic]; norm_num)
      (by norm_num)⟩

/-! ### Curvature closure -/

/-- C7. Curvature closure: for H0 not zero, Hzinv_integral(zmin, zmax) is
(LIGHT_km / H0) * f(S) with S the scaled sum, K = 1 - OM - OL, k = sqrt |K|,
f(S) = sin(k S)/k for K < -1e-5, sinh(k S)/k for K > 1e-5 and S otherwise; for
a flat model (OM + OL = 1) the result is (LIGHT_km / H0) * S. -/
theorem Hzinv_integral_closure (E : Env) (zmin zmax : ℝ) (I : HzFUN_INFO_DEF)
    (hH0 : I.COSPAR_LIST.H0 ≠ 0) :
    Hzinv_integral E zmin zmax I =
      (E.LIGHT_km / I.COSPAR_LIST.H0) *
        (if 1 - I.COSPAR_LIST.OM - I.COSPAR_LIST.OL < -1.0e-5 then
          sin (sqrt |1 - I.COSPAR_LIST.OM - I.COSPAR_LIST.OL| * Hzinv_sum E zmin zmax I) /
            sqrt |1 - I.COSPAR_LIST.OM - I.COSPAR_LIST.OL|
        else if 1 - I.COSPAR_LIST.OM - I.COSPAR_LIST.OL > 1.0e-5 then
          sinh (sqrt |1 - I.COSPAR_LIST.OM - I.COSPAR_LIST.OL| * Hzinv_sum E zmin zmax I) /
            sqrt |1 - I.COSPAR_LIST.OM - I.COSPAR_LIST.OL|
        else Hzinv_sum E zmin zmax I) ∧
    (I.COSPAR_LIST.OM + I.COSPAR_LIST.OL = 1 →
      Hzinv_integral E zmin zmax I =
        (E.LIGHT_km / I.COSPAR_LIST.H0) * Hzinv_sum E zmin zmax I) := by
  have hH0' : I.COSPAR_LIST.H0 / I.COSPAR_LIST.H0 = 1 := div_self hH0
  have e1 : (0.00001 : ℝ) = 1.0e-5 := by norm_num
  constructor
  · simp only [Hzinv_integral, e1]
    ring
  · intro hflat
    have hk : 1 - I.COSPAR_LIST.OM - I.COSPAR_LIST.OL = 0 := by linarith
    have hn1 : ¬ ((0 : ℝ) < -0.00001) := by norm_num
    have hn2 : ¬ ((0 : ℝ) > 0.00001) := by norm_num
    simp only [Hzinv_integral, hk, if_neg hn1, if_neg hn2]
    ring

/-- Witness of C7: the flat sample model between z = 0 and z = 0.5. -/
theorem Hzinv_integral_closure_witness :
    sampleLCDM.COSPAR_LIST.H0 ≠ 0 ∧
    (Hzinv_integral sampleEnv 0 0.5 sampleLCDM =
      (sampleEnv.LIGHT_km / sampleLCDM.COSPAR_LIST.H0) *
        (if 1 - sampleLCDM.COSPAR_LIST.OM - sampleLCDM.COSPAR_LIST.OL < -1.0e-5 then
          sin (sqrt |1 - sampleLCDM.COSPAR_LIST.OM - sampleLCDM.COSPAR_LIST.OL| *
              Hzinv_sum sampleEnv 0 0.5 sampleLCDM) /
            sqrt |1 - sampleLCDM.COSPAR_LIST.OM - sampleLCDM.COSPAR_LIST.OL|
        else if 1 - sampleLCDM.COSPAR_LIST.OM - sampleLCDM.COSPAR_LIST.OL > 1.0e-5 then
          sinh (sqrt |1 - sampleLCDM.COSPAR_LIST.OM - sampleLCDM.COSPAR_LIST.OL| *
              Hzinv_sum sampleEnv 0 0.5 sampleLCDM) /
            sqrt |1 - sampleLCDM.COSPAR_LIST.OM - sampleLCDM.COSPAR_LIST.OL|
        else Hzinv_sum sampleEnv 0 0.5 sampleLCDM) ∧
    (sampleLCDM.COSPAR_LIST.OM + sampleLCDM.COSPAR_LIST.OL = 1 →
      Hzinv_integral sampleEnv 0 0.5 sampleLCDM =
        (sampleEnv.LIGHT_km / sampleLCDM.COSPAR_LIST.H0) *
          Hzinv_sum sampleEnv 0 0.5 sampleLCDM)) :=
  ⟨by simp only [sampleLCDM, analytic]; norm_num,
    Hzinv_integral_closure sampleEnv 0 0.5 sampleLCDM
      (by simp only [sampleLCDM, analytic]; norm_num)⟩

/-! ### Distance modulus -/

/-- The base ten logarithm of 1e5 is 5. -/
theorem log10_1e5 : log10 (10 ^ 5) = 5 := by
  unfold log10
  rw [Real.logb_pow, Real.logb_self_eq_one (by norm_num)]
  norm_num

/-- C9. Isotropic distance modulus: with USE_FLAG false, PC_km not zero and
(1 + zHEL) r > 0 for r = Hzinv_integral(0, zCMB), dLmag returns
5 log10((1 + zHEL) r (1e6 PC_km) / (10 PC_km)), which is
5 log10((1 + zHEL) r) + 25. -/
theorem dLmag_isotropic (E : Env) (zCMB zHEL : ℝ) (I : HzFUN_INFO_DEF)
    (A : ANISOTROPY_INFO_DEF) (hflag : A.USE_FLAG = false) (hPC : E.PC_km ≠ 0)
    (hpos : 0 < (1 + zHEL) * Hzinv_integral E 0 zCMB I) :
    dLmag E zCMB zHEL I A =
      5 * log10 ((1 + zHEL) * Hzinv_integral E 0 zCMB I * (1.0e6 * E.PC_km) /
        (10 * E.PC_km)) ∧
    dLmag E zCMB zHEL I A =
      5 * log10 ((1 + zHEL) * Hzinv_integral E 0 zCMB I) + 25 := by
  have h1 : dLmag E zCMB zHEL I A =
      5 * log10 ((1 + zHEL) * Hzinv_integral E 0 zCMB I * (1.0e6 * E.PC_km) /
        (10 * E.PC_km)) := by
    simp only [dLmag, hflag]
    simp only [Bool.false_eq_true, if_false]
    congr 2
    ring
  refine ⟨h1, ?_⟩
  rw [h1]
  have harg : (1 + zHEL) * Hzinv_integral E 0 zCMB I * (1.0e6 * E.PC_km) / (10 * E.PC_km) =
      (1 + zHEL) * Hzinv_integral E 0 zCMB I * 10 ^ 5 := by
    field_simp
    ring
  rw [harg]
  have hlog : log10 ((1 + zHEL) * Hzinv_integral E 0 zCMB I * 10 ^ 5) =
      log10 ((1 + zHEL) * Hzinv_integral E 0 zCMB I) + log10 (10 ^ 5) := by
    unfold log10
    exact Real.logb_mul (ne_of_gt hpos) (by norm_num)
  rw [hlog, log10_1e5]
  ring

/-- The dipole deceleration in terms of the haversine angle: when PI is not
zero, the conversion of the separation to degrees and back cancels. -/
theorem q_dipole_eq (E : Env) (zHEL : ℝ) (A : ANISOTROPY_INFO_DEF) (hPI : E.PI ≠ 0) :
    q_dipole E zHEL A =
      A.qm + A.qd * exp (-zHEL / A.S) *
        cos (spec_haversine (A.GLON * E.PI / 180) (A.GLAT * E.PI / 180)
          (264.021 * E.PI / 180) (48.253 * E.PI / 180)) := by
  simp only [q_dipole, angular_separation, F_dipole, spec_haversine, Real.rpow_two]
  congr 3
  field_simp

/-- C10. Anisotropic distance modulus: with USE_FLAG true (and PI not zero),
dLmag returns 5 log10(D_L / (10 PC_km)) where
D_L = (LIGHT_km zHEL / H0) (1 + (1/2)(1 - q) zHEL - (1/6)(1 - q - 3 q^2 + J0) zHEL^2),
q = qm + qd exp(-zHEL / S) cos(theta) and theta is the haversine angle between
(GLON, GLAT) and the apex (264.021, 48.253) degrees. -/
theorem dLmag_anisotropic (E : Env) (zCMB zHEL : ℝ) (I : HzFUN_INFO_DEF)
    (A : ANISOTROPY_INFO_DEF) (hflag : A.USE_FLAG = true) (hPI : E.PI ≠ 0) :
    ∃ theta q D_L : ℝ,
      theta = spec_haversine (A.GLON * E.PI / 180) (A.GLAT * E.PI / 180)
        (264.021 * E.PI / 180) (48.253 * E.PI / 180) ∧
      q = A.qm + A.qd * exp (-zHEL / A.S) * cos theta ∧
      D_L = (E.LIGHT_km * zHEL / I.COSPAR_LIST.H0) *
        (1 + (1 / 2) * (1 - q) * zHEL - (1 / 6) * (1 - q - 3 * q ^ 2 + A.J0) * zHEL ^ 2) ∧
      dLmag E zCMB zHEL I A = 5 * log10 (D_L / (10 * E.PC_km)) := by
  refine ⟨_, _, _, rfl, rfl, rfl, ?_⟩
  rw [← q_dipole_eq E zHEL A hPI]
  simp only [dLmag, hflag, if_true, Real.rpow_two]

/-- Witness of C10: the sample dipole at zHEL = 0.1 over the flat sample
model. -/
theorem dLmag_anisotropic_witness :
    (sampleDipole true).USE_FLAG = true ∧ sampleEnv.PI ≠ 0 ∧
    ∃ theta q D_L : ℝ,
      theta = spec_haversine ((sampleDipole true).GLON * sampleEnv.PI / 180)
        ((sampleDipole true).GLAT * sampleEnv.PI / 180)
        (264.021 * sampleEnv.PI / 180) (48.253 * sampleEnv.PI / 180) ∧
      q = (sampleDipole true).qm +
        (sampleDipole true).qd * exp (-0.1 / (sampleDipole true).S) * cos theta ∧
      D_L = (sampleEnv.LIGHT_km * 0.1 / sampleLCDM.COSPAR_LIST.H0) *
        (1 + (1 / 2) * (1 - q) * 0.1 -
          (1 / 6) * (1 - q - 3 * q ^ 2 + (sampleDipole true).J0) * 0.1 ^ 2) ∧
      dLmag sampleEnv 0.2 0.1 sampleLCDM (sampleDipole true) =
        5 * log10 (D_L / (10 * sampleEnv.PC_km)) :=
  ⟨rfl, Real.pi_ne_zero,
    dLmag_anisotropic sampleEnv 0.2 0.1 sampleLCDM (sampleDipole true) rfl Real.pi_ne_zero⟩

/-! ### Monotonicity of the computed comoving distance -/

/-- The accumulation loop is monotone in its terms. -/
theorem sum_loop_le (f g : ℕ → ℝ) (n : ℕ) (h : ∀ i, i < n → f i ≤ g i) :
    sum_loop f n ≤ sum_loop g n := by
  induction n with
  | zero => simp [sum_loop]
  | succ k ih =>
    simp only [sum_loop]
    have h1 := ih (fun i hi => h i (Nat.lt_succ_of_lt hi))
    have h2 := h k (Nat.lt_succ_self k)
    linarith

/-- The accumulation loop is strictly monotone in its terms when it runs at
least once. -/
theorem sum_loop_lt (f g : ℕ → ℝ) (n : ℕ) (hn : 0 < n) (h : ∀ i, i < n → f i < g i) :
    sum_loop f n < sum_loop g n := by
  obtain ⟨k, rfl⟩ : ∃ k, n = k + 1 := ⟨n - 1, by omega⟩
  simp only [sum_loop]
  have h1 := sum_loop_le f g k (fun i hi => le_of_lt (h i (Nat.lt_succ_of_lt hi)))
  have h2 := h k (Nat.lt_succ_self k)
  linarith

/-- The accumulation loop commutes with a constant factor. -/
theorem sum_loop_mul (f : ℕ → ℝ) (c : ℝ) (n : ℕ) :
    sum_loop f n * c = sum_loop (fun i => f i * c) n := by
  induction n with
  | zero => simp [sum_loop]
  | succ k ih =>
    simp only [sum_loop]
    rw [add_mul, ih]

/-- The bin count of Hzinv_integral is at least 10. -/
theorem Hzinv_Nzbin_ge (E : Env) (zmin zmax : ℝ) : 10 ≤ Hzinv_Nzbin E zmin zmax := by
  unfold Hzinv_Nzbin
  simp only
  split_ifs with h
  · exact le_refl _
  · exact not_lt.mp h

/-- For a flat model with H0 not zero the result of Hzinv_integral is
LIGHT_km times the sum of dz / H over the midpoints. -/
theorem Hzinv_integral_flat (E : Env) (zmin zmax : ℝ) (I : HzFUN_INFO_DEF)
    (hH0 : I.COSPAR_LIST.H0 ≠ 0) (hflat : I.COSPAR_LIST.OM + I.COSPAR_LIST.OL = 1) :
    Hzinv_integral E zmin zmax I =
      E.LIGHT_km *
        sum_loop
          (fun iz =>
            1 / Hzfun E (zmin + (zmax - zmin) / (Hzinv_Nzbin E zmin zmax : ℝ) * ((iz : ℝ) + 0.5)) I *
              ((zmax - zmin) / (Hzinv_Nzbin E zmin zmax : ℝ)))
          (Hzinv_Nzbin E zmin zmax).toNat := by
  have hk : 1 - I.COSPAR_LIST.OM - I.COSPAR_LIST.OL = 0 := by linarith
  have hn1 : ¬ ((0 : ℝ) < -0.00001) := by norm_num
  have hn2 : ¬ ((0 : ℝ) > 0.00001) := by norm_num
  simp only [Hzinv_integral, Hzinv_sum, hk, if_neg hn1, if_neg hn2]
  rw [← sum_loop_mul]
  have h : ∀ S dz : ℝ, S * (dz * I.COSPAR_LIST.H0) * E.LIGHT_km / I.COSPAR_LIST.H0 =
      E.LIGHT_km * (S * dz) := by
    intro S dz
    field_simp
    ring
  exact h _ _

/-- The conversion to `int` of a nonnegative real between n and n + 1, for n
in the range of `int`, is n. -/
theorem int_cast_eq (x : ℝ) (n : ℤ) (h0 : 0 ≤ x) (hmax : n ≤ 2147483647)
    (hlo : (n : ℝ) ≤ x) (hhi : x < (n : ℝ) + 1) :
    int_cast x = n := by
  have hf : ⌊x⌋ = n := Int.floor_eq_iff.mpr ⟨hlo, hhi⟩
  have hn0 : 0 ≤ n := by
    rw [← hf]
    exact Int.floor_nonneg.mpr h0
  unfold int_cast
  simp only [if_pos h0, hf]
  rw [if_pos ⟨by omega, hmax⟩]

/-- The bin count of Hzinv_integral when the rounded product
(zmax - zmin) * 1000 lies between n and n + 1, for n between 10 and the
largest `int`, is n. -/
theorem Hzinv_Nzbin_eq (E : Env) (zmin zmax : ℝ) (n : ℤ) (h10 : 10 ≤ n)
    (hmax : n ≤ 2147483647)
    (hlo : (n : ℝ) ≤ E.fl ((zmax - zmin) * 1000))
    (hhi : E.fl ((zmax - zmin) * 1000) < (n : ℝ) + 1) :
    Hzinv_Nzbin E zmin zmax = n := by
  have h0 : (0 : ℝ) ≤ E.fl ((zmax - zmin) * 1000) := by
    have : (0 : ℝ) ≤ (n : ℝ) := by
      have : (0 : ℤ) ≤ n := by omega
      exact_mod_cast this
    linarith
  unfold Hzinv_Nzbin
  simp only [int_cast_eq _ n h0 hmax hlo hhi]
  rw [if_neg (by omega)]

/-- The bin count of Hzinv_integral over the sample environment, whose
products are exact, for a width between n / 1000 and (n + 1) / 1000. -/
theorem sample_Hzinv_Nzbin (zmin zmax : ℝ) (n : ℤ) (h10 : 10 ≤ n) (hmax : n ≤ 2147483647)
    (hlo : (n : ℝ) ≤ (zmax - zmin) * 1000) (hhi : (zmax - zmin) * 1000 < (n : ℝ) + 1) :
    Hzinv_Nzbin sampleEnv zmin zmax = n :=
  Hzinv_Nzbin_eq sampleEnv zmin zmax n h10 hmax hlo hhi

/-- H(z) of the flat sample model. -/
theorem sample_Hzfun (x : ℝ) :
    Hzfun sampleEnv x sampleLCDM = 70 * sqrt (0.3 * (1 + x) ^ 3 + 0.7) := by
  have h : Hzfun sampleEnv x sampleLCDM = Hzfun_wCDM x sampleLCDM := by
    simp [Hzfun, sampleLCDM, analytic]
  rw [h, Hzfun_wCDM_Lambda x sampleLCDM rfl rfl]
  simp only [sampleLCDM, analytic]
  congr 2
  ring

/-- H(z) of the flat sample model is positive for z at least 0. -/
theorem sample_Hzfun_pos (x : ℝ) (hx : 0 ≤ x) : 0 < Hzfun sampleEnv x sampleLCDM := by
  rw [sample_Hzfun]
  have : (0 : ℝ) < 0.3 * (1 + x) ^ 3 + 0.7 := by positivity
  have := Real.sqrt_pos.mpr this
  positivity

/-- The accumulation loop of positive terms is positive when it runs at least
once. -/
theorem sum_loop_pos (f : ℕ → ℝ) (n : ℕ) (hn : 0 < n) (h : ∀ i, i < n → 0 < f i) :
    0 < sum_loop f n := by
  have hz : ∀ k : ℕ, sum_loop (fun _ => (0 : ℝ)) k = 0 := by
    intro k
    induction k with
    | zero => rfl
    | succ j ih => simp [sum_loop, ih]
  have := sum_loop_lt (fun _ => (0 : ℝ)) f n hn h
  rwa [hz] at this

/-- For a flat model with H0 > 0 and H positive at nonnegative redshift the
computed comoving distance to a positive redshift is positive. -/
theorem Hzinv_integral_pos (E : Env) (I : HzFUN_INFO_DEF) (zmax : ℝ)
    (hL : 0 < E.LIGHT_km) (hH0 : 0 < I.COSPAR_LIST.H0)
    (hflat : I.COSPAR_LIST.OM + I.COSPAR_LIST.OL = 1) (hz : 0 < zmax)
    (hH : ∀ x : ℝ, 0 ≤ x → 0 < Hzfun E x I) :
    0 < Hzinv_integral E 0 zmax I := by
  rw [Hzinv_integral_flat E 0 zmax I (ne_of_gt hH0) hflat]
  have hN10 : (10 : ℤ) ≤ Hzinv_Nzbin E 0 zmax := Hzinv_Nzbin_ge E 0 zmax
  have hNpos : (0 : ℝ) < (Hzinv_Nzbin E 0 zmax : ℝ) := by
    have : (0 : ℤ) < Hzinv_Nzbin E 0 zmax := by omega
    exact_mod_cast this
  apply mul_pos hL
  apply sum_loop_pos
  · omega
  · intro i _
    have hd : 0 < (zmax - 0) / (Hzinv_Nzbin E 0 zmax : ℝ) := by
      apply div_pos _ hNpos
      linarith
    have hc : (0 : ℝ) < (i : ℝ) + 0.5 := by positivity
    have hx : 0 ≤ 0 + (zmax - 0) / (Hzinv_Nzbin E 0 zmax : ℝ) * ((i : ℝ) + 0.5) := by
      have := mul_pos hd hc
      linarith
    have := hH _ hx
    positivity

/-- Witness of C9: the flat sample model at zCMB = 0.5, zHEL = 0.5. -/
theorem dLmag_isotropic_witness :
    (sampleDipole false).USE_FLAG = false ∧ sampleEnv.PC_km ≠ 0 ∧
    0 < (1 + 0.5) * Hzinv_integral sampleEnv 0 0.5 sampleLCDM ∧
    dLmag sampleEnv 0.5 0.5 sampleLCDM (sampleDipole false) =
      5 * log10 ((1 + 0.5) * Hzinv_integral sampleEnv 0 0.5 sampleLCDM *
        (1.0e6 * sampleEnv.PC_km) / (10 * sampleEnv.PC_km)) ∧
    dLmag sampleEnv 0.5 0.5 sampleLCDM (sampleDipole false) =
      5 * log10 ((1 + 0.5) * Hzinv_integral sampleEnv 0 0.5 sampleLCDM) + 25 := by
  have hPC : sampleEnv.PC_km ≠ 0 := by
    simp only [sampleEnv]
    norm_num
  have hr : 0 < Hzinv_integral sampleEnv 0 0.5 sampleLCDM := by
    apply Hzinv_integral_pos
    · simp only [sampleEnv]
      norm_num
    · simp only [sampleLCDM, analytic]
      norm_num
    · simp only [sampleLCDM, analytic]
      norm_num
    · norm_num
    · exact sample_Hzfun_pos
  have hpos : 0 < (1 + 0.5) * Hzinv_integral sampleEnv 0 0.5 sampleLCDM := by
    positivity
  exact ⟨rfl, hPC, hpos,
    dLmag_isotropic sampleEnv 0.5 0.5 sampleLCDM (sampleDipole false) rfl hPC hpos⟩

/-! ### Units of the dipole branch -/

/-- With the dipole model on, PC_km > 0 and a positive Taylor distance D_L,
dLmag is 5 log10(D_L) + 25 - 5 log10(1e6 PC_km): the factor 1e6 PC_km that
takes Mpc to km is not applied to D_L. -/
theorem dLmag_dipole_units (E : Env) (zCMB zHEL : ℝ) (I : HzFUN_INFO_DEF)
    (A : ANISOTROPY_INFO_DEF) (hflag : A.USE_FLAG = true) (hPC : 0 < E.PC_km)
    (hDL : 0 < (E.LIGHT_km * zHEL / I.COSPAR_LIST.H0) *
      (1 + 1 / 2 * (1 - q_dipole E zHEL A) * zHEL -
        (1 / 6) * (1 - q_dipole E zHEL A - 3 * q_dipole E zHEL A ^ 2 + A.J0) * zHEL ^ 2)) :
    dLmag E zCMB zHEL I A =
      5 * log10 ((E.LIGHT_km * zHEL / I.COSPAR_LIST.H0) *
        (1 + 1 / 2 * (1 - q_dipole E zHEL A) * zHEL -
          (1 / 6) * (1 - q_dipole E zHEL A - 3 * q_dipole E zHEL A ^ 2 + A.J0) * zHEL ^ 2))
        + 25 - 5 * log10 (1.0e6 * E.PC_km) := by
  have h1 : dLmag E zCMB zHEL I A =
      5 * log10 ((E.LIGHT_km * zHEL / I.COSPAR_LIST.H0) *
        (1 + 1 / 2 * (1 - q_dipole E zHEL A) * zHEL -
          (1 / 6) * (1 - q_dipole E zHEL A - 3 * q_dipole E zHEL A ^ 2 + A.J0) * zHEL ^ 2) /
        (10 * E.PC_km)) := by
    simp only [dLmag, hflag, if_true, Real.rpow_two]
  rw [h1]
  have h10 : (1.0e6 : ℝ) * E.PC_km = 10 * E.PC_km * 10 ^ 5 := by ring
  have hne : (10 : ℝ) * E.PC_km ≠ 0 := by positivity
  have h2 : log10 (1.0e6 * E.PC_km) = log10 (10 * E.PC_km) + 5 := by
    rw [h10]
    have := log10_1e5
    unfold log10 at this ⊢
    rw [Real.logb_mul hne (by norm_num), this]
  rw [h2]
  unfold log10
  rw [Real.logb_div (ne_of_gt hDL) hne]
  ring

/-- C11, the code at the failing input: dipole model on with qm = -0.55,
qd = 0, J0 = 1, H0 = 70, zHEL = 0.1.  The Taylor distance D_L is about 460 Mpc
and dLmag returns 5 log10(D_L) + 25 - 5 log10(1e6 PC_km), which is not the
5 log10(D_L) + 25 of the convention. -/
theorem dLmag_dipole_units_sample :
    dLmag sampleEnv 0.1 0.1 sampleLCDM sampleMonopole =
      5 * log10 ((299792.458 * 0.1 / 70) *
        (1 + 1 / 2 * (1 - (-0.55)) * 0.1 -
          (1 / 6) * (1 - (-0.55) - 3 * (-0.55) ^ 2 + 1) * 0.1 ^ 2))
        + 25 - 5 * log10 (1.0e6 * 3.0856775807e13) ∧
    dLmag sampleEnv 0.1 0.1 sampleLCDM sampleMonopole ≠
      5 * log10 ((299792.458 * 0.1 / 70) *
        (1 + 1 / 2 * (1 - (-0.55)) * 0.1 -
          (1 / 6) * (1 - (-0.55) - 3 * (-0.55) ^ 2 + 1) * 0.1 ^ 2)) + 25 := by
  have hq : q_dipole sampleEnv 0.1 sampleMonopole = -0.55 := by
    simp [q_dipole, sampleMonopole]
  have hPC : (0 : ℝ) < sampleEnv.PC_km := by
    simp only [sampleEnv]
    norm_num
  have h := dLmag_dipole_units sampleEnv 0.1 0.1 sampleLCDM sampleMonopole rfl hPC
    (by
      rw [hq]
      simp only [sampleEnv, sampleLCDM, analytic, sampleMonopole]
      norm_num)
  rw [hq] at h
  have e : dLmag sampleEnv 0.1 0.1 sampleLCDM sampleMonopole =
      5 * log10 ((299792.458 * 0.1 / 70) *
        (1 + 1 / 2 * (1 - (-0.55)) * 0.1 -
          (1 / 6) * (1 - (-0.55) - 3 * (-0.55) ^ 2 + 1) * 0.1 ^ 2))
        + 25 - 5 * log10 (1.0e6 * 3.0856775807e13) := by
    rw [h]
    simp only [sampleEnv, sampleLCDM, analytic, sampleMonopole]
  refine ⟨e, ?_⟩
  rw [e]
  have hlog : 0 < log10 (1.0e6 * 3.0856775807e13) := by
    unfold log10
    exact Real.logb_pos (by norm_num) (by norm_num)
  intro hcontra
  linarith

/-! ### Quadrature: bins and midpoints -/

/-- The accumulation loop is the finite sum of its terms. -/
theorem sum_loop_eq_sum (f : ℕ → ℝ) (n : ℕ) :
    sum_loop f n = ∑ i in Finset.range n, f i := by
  induction n with
  | zero => simp [sum_loop]
  | succ k ih => rw [sum_loop, Finset.sum_range_succ, ih]

/-- The bin count of dVdz_integral is at least 10. -/
theorem dVdz_Nzbin_ge (E : Env) (zmax : ℝ) : 10 ≤ dVdz_Nzbin E zmax := by
  unfold dVdz_Nzbin
  simp only
  split_ifs with h
  · exact le_refl _
  · exact not_lt.mp h

/-- C13. Mean redshift: for zmax > 0 and a model with dVdz > 0 at every
midpoint of the quadrature, the ratio of the z weighted volume integral
(OPT = 1) to the plain one (OPT = 0) is above 0 and below zmax. -/
theorem dVdz_mean_redshift (E : Env) (zmax : ℝ) (I : HzFUN_INFO_DEF) (hz : 0 < zmax)
    (hpos : ∀ i : ℕ, i < (dVdz_Nzbin E zmax).toNat →
      0 < dVdz E (zmax / float_cast (dVdz_Nzbin E zmax) * ((i : ℝ) + 0.5)) I) :
    0 < dVdz_integral E 1 zmax I / dVdz_integral E 0 zmax I ∧
    dVdz_integral E 1 zmax I / dVdz_integral E 0 zmax I < zmax := by
  have hN10 : (10 : ℤ) ≤ dVdz_Nzbin E zmax := dVdz_Nzbin_ge E zmax
  have hNpos : (0 : ℝ) < float_cast (dVdz_Nzbin E zmax) := by
    unfold float_cast
    have : (0 : ℤ) < dVdz_Nzbin E zmax := by omega
    exact_mod_cast this
  have hdz : 0 < zmax / float_cast (dVdz_Nzbin E zmax) := div_pos hz hNpos
  have hn : 0 < (dVdz_Nzbin E zmax).toNat := by omega
  have hmid : ∀ i : ℕ, i < (dVdz_Nzbin E zmax).toNat →
      0 < zmax / float_cast (dVdz_Nzbin E zmax) * ((i : ℝ) + 0.5) ∧
      zmax / float_cast (dVdz_Nzbin E zmax) * ((i : ℝ) + 0.5) < zmax := by
    intro i hi
    have hc : (0 : ℝ) < (i : ℝ) + 0.5 := by positivity
    refine ⟨mul_pos hdz hc, ?_⟩
    have hiN : (i : ℝ) + 0.5 < float_cast (dVdz_Nzbin E zmax) := by
      unfold float_cast
      have h1 : (i : ℤ) + 1 ≤ dVdz_Nzbin E zmax := by omega
      have h2 : ((i : ℝ)) + 1 ≤ (dVdz_Nzbin E zmax : ℝ) := by exact_mod_cast h1
      linarith
    have h3 := mul_lt_mul_of_pos_left hiN hdz
    have h4 : zmax / float_cast (dVdz_Nzbin E zmax) * float_cast (dVdz_Nzbin E zmax) = zmax := by
      field_simp
    linarith
  have hden : dVdz_integral E 0 zmax I =
      sum_loop (fun i => dVdz E (zmax / float_cast (dVdz_Nzbin E zmax) * ((i : ℝ) + 0.5)) I)
        (dVdz_Nzbin E zmax).toNat * (zmax / float_cast (dVdz_Nzbin E zmax)) := by
    simp [dVdz_integral]
  have hnum : dVdz_integral E 1 zmax I =
      sum_loop (fun i => zmax / float_cast (dVdz_Nzbin E zmax) * ((i : ℝ) + 0.5) *
          dVdz E (zmax / float_cast (dVdz_Nzbin E zmax) * ((i : ℝ) + 0.5)) I)
        (dVdz_Nzbin E zmax).toNat * (zmax / float_cast (dVdz_Nzbin E zmax)) := by
    simp [dVdz_integral]
  have hS0 : 0 < sum_loop
      (fun i => dVdz E (zmax / float_cast (dVdz_Nzbin E zmax) * ((i : ℝ) + 0.5)) I)
      (dVdz_Nzbin E zmax).toNat := sum_loop_pos _ _ hn hpos
  have hS1 : 0 < sum_loop
      (fun i => zmax / float_cast (dVdz_Nzbin E zmax) * ((i : ℝ) + 0.5) *
        dVdz E (zmax / float_cast (dVdz_Nzbin E zmax) * ((i : ℝ) + 0.5)) I)
      (dVdz_Nzbin E zmax).toNat :=
    sum_loop_pos _ _ hn (fun i hi => mul_pos (hmid i hi).1 (hpos i hi))
  have hlt : sum_loop
      (fun i => zmax / float_cast (dVdz_Nzbin E zmax) * ((i : ℝ) + 0.5) *
        dVdz E (zmax / float_cast (dVdz_Nzbin E zmax) * ((i : ℝ) + 0.5)) I)
      (dVdz_Nzbin E zmax).toNat <
      sum_loop (fun i => dVdz E (zmax / float_cast (dVdz_Nzbin E zmax) * ((i : ℝ) + 0.5)) I)
        (dVdz_Nzbin E zmax).toNat * zmax := by
    rw [sum_loop_mul]
    apply sum_loop_lt _ _ _ hn
    intro i hi
    have h1 := mul_lt_mul_of_pos_right (hmid i hi).2 (hpos i hi)
    linarith
  rw [hden, hnum]
  have hD : 0 < sum_loop
      (fun i => dVdz E (zmax / float_cast (dVdz_Nzbin E zmax) * ((i : ℝ) + 0.5)) I)
      (dVdz_Nzbin E zmax).toNat * (zmax / float_cast (dVdz_Nzbin E zmax)) := mul_pos hS0 hdz
  constructor
  · exact div_pos (mul_pos hS1 hdz) hD
  · rw [div_lt_iff₀ hD]
    have := mul_lt_mul_of_pos_right hlt hdz
    linarith

/-- The volume element of the flat sample model is positive at positive
redshift. -/
theorem sample_dVdz_pos (z : ℝ) (hz : 0 < z) : 0 < dVdz sampleEnv z sampleLCDM := by
  have hL : (0 : ℝ) < sampleEnv.LIGHT_km := by
    simp only [sampleEnv]
    norm_num
  have hr : 0 < Hzinv_integral sampleEnv 0 z sampleLCDM := by
    apply Hzinv_integral_pos sampleEnv sampleLCDM z hL
    · simp only [sampleLCDM, analytic]
      norm_num
    · simp only [sampleLCDM, analytic]
      norm_num
    · exact hz
    · exact sample_Hzfun_pos
  have hH := sample_Hzfun_pos z (le_of_lt hz)
  simp only [dVdz]
  positivity

/-- Witness of C13: the flat sample model up to zmax = 0.5. -/
theorem dVdz_mean_redshift_witness :
    (0 : ℝ) < 0.5 ∧
    (∀ i : ℕ, i < (dVdz_Nzbin sampleEnv 0.5).toNat →
      0 < dVdz sampleEnv (0.5 / float_cast (dVdz_Nzbin sampleEnv 0.5) * ((i : ℝ) + 0.5)) sampleLCDM) ∧
    0 < dVdz_integral sampleEnv 1 0.5 sampleLCDM / dVdz_integral sampleEnv 0 0.5 sampleLCDM ∧
    dVdz_integral sampleEnv 1 0.5 sampleLCDM / dVdz_integral sampleEnv 0 0.5 sampleLCDM
      < 0.5 := by
  have hpos : ∀ i : ℕ, i < (dVdz_Nzbin sampleEnv 0.5).toNat →
      0 < dVdz sampleEnv (0.5 / float_cast (dVdz_Nzbin sampleEnv 0.5) * ((i : ℝ) + 0.5)) sampleLCDM := by
    intro i _
    apply sample_dVdz_pos
    have hN10 : (10 : ℤ) ≤ dVdz_Nzbin sampleEnv 0.5 := dVdz_Nzbin_ge sampleEnv 0.5
    have hNpos : (0 : ℝ) < float_cast (dVdz_Nzbin sampleEnv 0.5) := by
      unfold float_cast
      have : (0 : ℤ) < dVdz_Nzbin sampleEnv 0.5 := by omega
      exact_mod_cast this
    positivity
  exact ⟨by norm_num, hpos, dVdz_mean_redshift sampleEnv 0.5 sampleLCDM (by norm_num) hpos⟩

/-! ### Star formation integral -/

/-- C15, counterexample. At z = 0 the resolution policy asks for
max(10, floor(1000 * (1 - 0))) = 1000 bins, and SFR_integral sums over the 100
bins of width 1/100 of its constant NABIN. -/
theorem SFR_integral_bins_counterexample :
    spec_bins (1 / (1 + (0 : ℝ)) - 0) = 1000 ∧ SFR_NABIN = 100 ∧
    SFR_NABIN ≠ spec_bins (1 / (1 + (0 : ℝ)) - 0) ∧
    SFR_integral sampleEnv 0 sampleLCDM =
      (∑ k in Finset.range 100,
        SFRfun_BG03 (1 / (1 / 100 * ((k : ℝ) + 1 / 2)) - 1) 70 /
          (1 / 100 * ((k : ℝ) + 1 / 2) *
            Hzfun sampleEnv (1 / (1 / 100 * ((k : ℝ) + 1 / 2)) - 1) sampleLCDM)) *
        (1 / 100 * (1.0e6 * 3.0856775807e13 / (3600 * 24 * 365))) := by
  have hb : spec_bins (1 / (1 + (0 : ℝ)) - 0) = 1000 := by
    unfold spec_bins
    have h1 : (1000 : ℝ) * (1 / (1 + 0) - 0) = ((1000 : ℤ) : ℝ) := by norm_num
    rw [h1, Int.floor_intCast]
    norm_num
  refine ⟨hb, rfl, ?_, ?_⟩
  · rw [hb]
    unfold SFR_NABIN
    norm_num
  · have e100 : (SFR_NABIN).toNat = 100 := rfl
    simp only [SFR_integral, e100, sum_loop_eq_sum]
    have hA : (1 / (1 + (0 : ℝ)) - 0) / ((SFR_NABIN : ℤ) : ℝ) = 1 / 100 := by
      unfold SFR_NABIN
      norm_num
    rw [hA]
    have hH0 : sampleLCDM.COSPAR_LIST.H0 = 70 := rfl
    have hPC : sampleEnv.PC_km = 3.0856775807e13 := rfl
    rw [hH0, hPC]
    congr 1
    apply Finset.sum_congr rfl
    intro k _
    have hk : (0 : ℝ) + 1 / 100 * (((k + 1 : ℕ) : ℝ) - 0.5) = 1 / 100 * ((k : ℝ) + 1 / 2) := by
      push_cast
      ring
    rw [hk]

/-- C15, amended. SFR_integral uses the midpoint rule over (0, 1/(1+z)] with
the fixed number of 100 bins: with ABIN = (1/(1+z)) / 100 and the midpoints
a_k = ABIN (k + 1/2), k = 0 .. 99, it returns the sum of
SFR(z_k) / (a_k H(z_k)), z_k = 1/a_k - 1, times ABIN and the factor
1e6 PC_km / seconds per year. -/
theorem SFR_integral_fixed_bins (E : Env) (z : ℝ) (I : HzFUN_INFO_DEF) :
    SFR_integral E z I =
      (∑ k in Finset.range 100,
        SFRfun_BG03 (1 / (1 / (1 + z) / 100 * ((k : ℝ) + 1 / 2)) - 1) I.COSPAR_LIST.H0 /
          (1 / (1 + z) / 100 * ((k : ℝ) + 1 / 2) *
            Hzfun E (1 / (1 / (1 + z) / 100 * ((k : ℝ) + 1 / 2)) - 1) I)) *
        (1 / (1 + z) / 100 * (1.0e6 * E.PC_km / (3600 * 24 * 365))) := by
  have e100 : (SFR_NABIN).toNat = 100 := rfl
  simp only [SFR_integral, e100, sum_loop_eq_sum]
  have hA : (1 / (1 + z) - 0) / ((SFR_NABIN : ℤ) : ℝ) = 1 / (1 + z) / 100 := by
    unfold SFR_NABIN
    norm_num
  rw [hA]
  congr 1
  apply Finset.sum_congr rfl
  intro k _
  have hk : (0 : ℝ) + 1 / (1 + z) / 100 * (((k + 1 : ℕ) : ℝ) - 0.5) =
      1 / (1 + z) / 100 * ((k : ℝ) + 1 / 2) := by
    push_cast
    ring
  rw [hk]

/-! ### Construction of the H(z) model -/

/-- In map mode, when the debug write is not asked for or its file opens,
init_HzFUN_INFO is the reading of the map applied to the struct with the
parameters, the file name and USE_MAP set. -/
theorem init_map_mode (S : Sys) (VBOSE : ℤ) (cosPar : COSPAR) (fileName : String)
    (info : HzFUN_INFO_DEF) (hmap : S.IGNOREFILE fileName = false)
    (hwr : (strstr_found fileName "OUT" || strstr_found fileName "out") = true →
      S.fopen_wt fileName = true) :
    init_HzFUN_INFO S VBOSE cosPar fileName info =
      match init_read_map S fileName
        { info with COSPAR_LIST := cosPar, Nzbin_MAP := 0, USE_MAP := true,
                    FILENAME := fileName } with
      | .error e => .error e
      | .ok out => .ok (out, []) := by
  by_cases hW : (strstr_found fileName "OUT" || strstr_found fileName "out") = true
  · have hop := hwr hW
    simp only [init_HzFUN_INFO, hmap, hW, write_HzFUN_FILE, hop, Bool.not_false, if_true]
  · simp only [init_HzFUN_INFO, hmap, hW, Bool.not_false, if_true]
    simp

/-- C14. Rejection of a tabulated map.  In map mode (file name not ignored,
and the debug write, when asked for, able to open its file), for a map with
at least one row as read from the file, init_HzFUN_INFO ends in a fatal error
exactly when the first redshift of the map is not 0; when it is 0 the call
completes with USE_MAP true and the map stored, whatever the other rows. -/
theorem init_map_rejection (S : Sys) (VBOSE : ℤ) (cosPar : COSPAR) (fileName : String)
    (info : HzFUN_INFO_DEF) (N : ℤ) (z0 : ℝ) (zs Hs : List ℝ)
    (hmap : S.IGNOREFILE fileName = false)
    (hwr : (strstr_found fileName "OUT" || strstr_found fileName "out") = true →
      S.fopen_wt fileName = true)
    (hread : S.rd2columnFile fileName S.MXMAP_HzFUN = (N, z0 :: zs, Hs)) :
    ((∃ e, init_HzFUN_INFO S VBOSE cosPar fileName info = .error e) ↔ z0 ≠ 0) ∧
    (z0 = 0 →
      ∃ out log, init_HzFUN_INFO S VBOSE cosPar fileName info = .ok (out, log) ∧
        out.USE_MAP = true ∧ out.Nzbin_MAP = N ∧ out.zCMB_MAP = z0 :: zs ∧
        out.HzFUN_MAP = Hs ∧ out.COSPAR_LIST = cosPar) := by
  rw [init_map_mode S VBOSE cosPar fileName info hmap hwr]
  by_cases h0 : z0 = 0
  · simp [init_read_map, hread, h0]
  · simp [init_read_map, hread, h0]

/-- Witness of C14: the sample file bad.dat, whose first redshift is 0.001,
is rejected. -/
theorem init_map_rejection_witness :
    sampleSys.IGNOREFILE "bad.dat" = false ∧
    ((strstr_found "bad.dat" "OUT" || strstr_found "bad.dat" "out") = true →
      sampleSys.fopen_wt "bad.dat" = true) ∧
    sampleSys.rd2columnFile "bad.dat" sampleSys.MXMAP_HzFUN =
      (3, (0.001 : ℝ) :: [0.5, 1], [70, 90, 120]) ∧
    ((∃ e, init_HzFUN_INFO sampleSys 0 ⟨70, 0.3, 0.7, -1, 0⟩ "bad.dat" blankInfo = .error e) ↔
      (0.001 : ℝ) ≠ 0) ∧
    ((0.001 : ℝ) = 0 →
      ∃ out log, init_HzFUN_INFO sampleSys 0 ⟨70, 0.3, 0.7, -1, 0⟩ "bad.dat" blankInfo =
          .ok (out, log) ∧
        out.USE_MAP = true ∧ out.Nzbin_MAP = 3 ∧ out.zCMB_MAP = (0.001 : ℝ) :: [0.5, 1] ∧
        out.HzFUN_MAP = [70, 90, 120] ∧ out.COSPAR_LIST = ⟨70, 0.3, 0.7, -1, 0⟩) := by
  have hmap : sampleSys.IGNOREFILE "bad.dat" = false := by
    simp [sampleSys]
  have hwr : (strstr_found "bad.dat" "OUT" || strstr_found "bad.dat" "out") = true →
      sampleSys.fopen_wt "bad.dat" = true := fun _ => rfl
  have hread : sampleSys.rd2columnFile "bad.dat" sampleSys.MXMAP_HzFUN =
      (3, (0.001 : ℝ) :: [0.5, 1], [70, 90, 120]) := by
    simp [sampleSys]
  exact ⟨hmap, hwr, hread,
    init_map_rejection sampleSys 0 ⟨70, 0.3, 0.7, -1, 0⟩ "bad.dat" blankInfo 3 0.001
      [0.5, 1] [70, 90, 120] hmap hwr hread⟩

/-- C18, the code at the failing input: verbose analytic construction with
(H0, OM, OL, w0, wa) = (70, 0.3, 1.5, -1, 0).  The four checks are made with
the values 70, 0.3, 0.3, 0: the check labelled OL receives OM, no check
reports, and OL = 1.5 is outside [0, 1]. -/
theorem init_checks_sample :
    init_HzFUN_INFO sampleSys 1 ⟨70, 0.3, 1.5, -1, 0⟩ "NONE" blankInfo =
      .ok (analytic 70 0.3 1.5 (-1) 0,
        [⟨"H0", 70, 30.0, 100.0⟩, ⟨"OM", 0.3, 0.0, 1.0⟩, ⟨"OL", 0.3, 0.0, 1.0⟩,
          ⟨"wa", 0, -3.0, 1.0⟩]) ∧
    (analytic 70 0.3 1.5 (-1) 0).COSPAR_LIST.OL = 1.5 ∧
    (∀ c ∈ ([⟨"H0", 70, 30.0, 100.0⟩, ⟨"OM", 0.3, 0.0, 1.0⟩, ⟨"OL", 0.3, 0.0, 1.0⟩,
        ⟨"wa", 0, -3.0, 1.0⟩] : List Check), ¬ c.reports) ∧
    ¬ ((0 : ℝ) ≤ 1.5 ∧ (1.5 : ℝ) ≤ 1) := by
  refine ⟨?_, rfl, ?_, ?_⟩
  · have hig : sampleSys.IGNOREFILE "NONE" = true := by
      simp [sampleSys]
    have hv : ((1 : ℤ) ≠ 0) := by decide
    simp only [init_HzFUN_INFO, hig, Bool.not_true, Bool.false_eq_true, if_false, hv,
      ne_eq, not_false_eq_true, if_true]
    rfl
  · intro c hc
    simp only [List.mem_cons, List.mem_singleton, List.not_mem_nil, or_false] at hc
    rcases hc with rfl | rfl | rfl | rfl <;>
      (simp only [Check.reports]
       norm_num)
  · norm_num

/-! ### Direction cosine -/

/-- The direction cosine of two directions lies between -1 and 1. -/
theorem projection_bounds (b b0 d : ℝ) :
    -1 ≤ sin b * sin b0 + cos b * cos b0 * cos d ∧
    sin b * sin b0 + cos b * cos b0 * cos d ≤ 1 := by
  have hd1 : cos d ≤ 1 := Real.cos_le_one d
  have hd2 : -1 ≤ cos d := Real.neg_one_le_cos d
  have hm1 : cos (b - b0) ≤ 1 := Real.cos_le_one _
  have hm2 : -1 ≤ cos (b - b0) := Real.neg_one_le_cos _
  have hp1 : cos (b + b0) ≤ 1 := Real.cos_le_one _
  have hp2 : -1 ≤ cos (b + b0) := Real.neg_one_le_cos _
  rw [Real.cos_sub] at hm1 hm2
  rw [Real.cos_add] at hp1 hp2
  constructor
  · nlinarith
  · nlinarith

/-- For 0 <= CMBapex_v < LIGHT_km the projection vdotn is below 1 at every
position. -/
theorem vdotn_lt_one (E : Env) (l b : ℝ) (hv0 : 0 ≤ E.CMBapex_v)
    (hvL : E.CMBapex_v < E.LIGHT_km) : 0 < 1 - vdotn E l b := by
  have hL : 0 < E.LIGHT_km := lt_of_le_of_lt hv0 hvL
  have hp := projection_bounds (E.RADIAN * b) (E.RADIAN * E.CMBapex_b)
    (E.RADIAN * (l - E.CMBapex_l))
  have h1 : vdotn E l b =
      E.CMBapex_v * (sin (E.RADIAN * b) * sin (E.RADIAN * E.CMBapex_b) +
        cos (E.RADIAN * b) * cos (E.RADIAN * E.CMBapex_b) *
          cos (E.RADIAN * (l - E.CMBapex_l))) / E.LIGHT_km := rfl
  rw [h1, sub_pos, div_lt_one hL]
  have h2 : E.CMBapex_v * (sin (E.RADIAN * b) * sin (E.RADIAN * E.CMBapex_b) +
      cos (E.RADIAN * b) * cos (E.RADIAN * E.CMBapex_b) *
        cos (E.RADIAN * (l - E.CMBapex_l))) ≤ E.CMBapex_v * 1 :=
    mul_le_mul_of_nonneg_left hp.2 hv0
  linarith

/-- C20. Division safety: the projection
sin b sin b0 + cos b cos b0 cos(l - l0) lies in [-1, 1] at every position, so
under 0 <= CMBapex_v < LIGHT_km the denominator 1 - vdotn is positive; and for
z_input >= 1e-10, a known coordinate system and OPT not 0 the translator
returns a value z_out with 1 + z_out > 0. -/
theorem translator_division_safe (E : Env) (z_input RA DEC : ℝ) (coordSys : String)
    (OPT : ℤ) (hv0 : 0 ≤ E.CMBapex_v) (hvL : E.CMBapex_v < E.LIGHT_km)
    (hz : 1.0e-10 ≤ z_input) (hOPT : OPT ≠ 0)
    (hcs : coordSys = "eq" ∨ coordSys = "J2000" ∨ coordSys = "gal") :
    (∀ l b : ℝ,
      -1 ≤ sin (E.RADIAN * b) * sin (E.RADIAN * E.CMBapex_b) +
        cos (E.RADIAN * b) * cos (E.RADIAN * E.CMBapex_b) *
          cos (E.RADIAN * (l - E.CMBapex_l)) ∧
      sin (E.RADIAN * b) * sin (E.RADIAN * E.CMBapex_b) +
        cos (E.RADIAN * b) * cos (E.RADIAN * E.CMBapex_b) *
          cos (E.RADIAN * (l - E.CMBapex_l)) ≤ 1) ∧
    (∀ l b : ℝ, 0 < 1 - vdotn E l b) ∧
    ∃ z_out : ℝ, zhelio_zcmb_translator E z_input RA DEC coordSys OPT = .ok z_out ∧
      0 < 1 + z_out := by
  refine ⟨fun l b => projection_bounds _ _ _, fun l b => vdotn_lt_one E l b hv0 hvL, ?_⟩
  have hz' : ¬ z_input < 1.0e-10 := not_lt.mpr hz
  have hzpos : 0 < 1 + z_input := by
    have : (0 : ℝ) < 1.0e-10 := by norm_num
    linarith
  obtain ⟨g, hg⟩ : ∃ g : ℝ × ℝ, gal_coord E RA DEC coordSys = .ok g := by
    by_cases h1 : coordSys = "eq" ∨ coordSys = "J2000"
    · exact ⟨E.slaEqgal RA DEC, by simp [gal_coord, h1]⟩
    · have h2 : coordSys = "gal" := by tauto
      exact ⟨(RA, DEC), by simp [gal_coord, h2]⟩
  have hden := vdotn_lt_one E g.1 g.2 hv0 hvL
  rcases lt_or_gt_of_ne hOPT with hneg | hpos
  · have hnp : ¬ OPT > 0 := by omega
    refine ⟨(1 + z_input) * (1 - vdotn E g.1 g.2) - 1.0, ?_, ?_⟩
    · simp only [zhelio_zcmb_translator, if_neg hz', hg, if_neg hnp, if_pos hneg]
    · have := mul_pos hzpos hden
      norm_num
      linarith
  · refine ⟨(1 + z_input) / (1 - vdotn E g.1 g.2) - 1, ?_, ?_⟩
    · simp only [zhelio_zcmb_translator, if_neg hz', hg, if_pos hpos]
    · have := div_pos hzpos hden
      linarith

/-- Witness of C20: redshift 0.5 at the galactic position (10, 20) of the
sample environment, helio to CMB. -/
theorem translator_division_safe_witness :
    0 ≤ sampleEnv.CMBapex_v ∧ sampleEnv.CMBapex_v < sampleEnv.LIGHT_km ∧
    (1.0e-10 : ℝ) ≤ 0.5 ∧ (1 : ℤ) ≠ 0 ∧
    (("gal" : String) = "eq" ∨ ("gal" : String) = "J2000" ∨ ("gal" : String) = "gal") ∧
    (∀ l b : ℝ,
      -1 ≤ sin (sampleEnv.RADIAN * b) * sin (sampleEnv.RADIAN * sampleEnv.CMBapex_b) +
        cos (sampleEnv.RADIAN * b) * cos (sampleEnv.RADIAN * sampleEnv.CMBapex_b) *
          cos (sampleEnv.RADIAN * (l - sampleEnv.CMBapex_l)) ∧
      sin (sampleEnv.RADIAN * b) * sin (sampleEnv.RADIAN * sampleEnv.CMBapex_b) +
        cos (sampleEnv.RADIAN * b) * cos (sampleEnv.RADIAN * sampleEnv.CMBapex_b) *
          cos (sampleEnv.RADIAN * (l - sampleEnv.CMBapex_l)) ≤ 1) ∧
    (∀ l b : ℝ, 0 < 1 - vdotn sampleEnv l b) ∧
    ∃ z_out : ℝ, zhelio_zcmb_translator sampleEnv 0.5 10 20 "gal" 1 = .ok z_out ∧
      0 < 1 + z_out := by
  have hv0 : 0 ≤ sampleEnv.CMBapex_v := by
    simp only [sampleEnv]
    norm_num
  have hvL : sampleEnv.CMBapex_v < sampleEnv.LIGHT_km := by
    simp only [sampleEnv]
    norm_num
  exact ⟨hv0, hvL, by norm_num, by decide, Or.inr (Or.inr rfl),
    translator_division_safe sampleEnv 0.5 10 20 "gal" 1 hv0 hvL (by norm_num) (by decide)
      (Or.inr (Or.inr rfl))⟩

/-! ### The dipole branch and the cosmology -/

/-- C22. With the dipole model on, dLmag is a function of zHEL, H0 and the
anisotropy parameters only (and of the constants LIGHT_km, PC_km, PI): it is
5 log10 of the Taylor distance over 10 PC_km, and two calls that differ in
zCMB, OM, OL, w0, wa or the map, with the same H0, return the same value. -/
theorem dLmag_dipole_ignores_cosmology (E : Env) (zCMB zCMB' zHEL : ℝ)
    (I I' : HzFUN_INFO_DEF) (A : ANISOTROPY_INFO_DEF) (hflag : A.USE_FLAG = true)
    (hH0 : I.COSPAR_LIST.H0 = I'.COSPAR_LIST.H0) :
    dLmag E zCMB zHEL I A =
      5 * log10 ((E.LIGHT_km * zHEL / I.COSPAR_LIST.H0) *
        (1 + 1 / 2 * (1 - q_dipole E zHEL A) * zHEL -
          (1 / 6) * (1 - q_dipole E zHEL A - 3 * q_dipole E zHEL A ^ 2 + A.J0) * zHEL ^ 2) /
        (10 * E.PC_km)) ∧
    dLmag E zCMB zHEL I A = dLmag E zCMB' zHEL I' A := by
  have h : ∀ (z : ℝ) (J : HzFUN_INFO_DEF), dLmag E z zHEL J A =
      5 * log10 ((E.LIGHT_km * zHEL / J.COSPAR_LIST.H0) *
        (1 + 1 / 2 * (1 - q_dipole E zHEL A) * zHEL -
          (1 / 6) * (1 - q_dipole E zHEL A - 3 * q_dipole E zHEL A ^ 2 + A.J0) * zHEL ^ 2) /
        (10 * E.PC_km)) := by
    intro z J
    simp only [dLmag, hflag, if_true, Real.rpow_two]
  refine ⟨h zCMB I, ?_⟩
  rw [h zCMB I, h zCMB' I', hH0]

/-- Witness of C22: the sample dipole at zHEL = 0.1, once over the flat
analytic sample at zCMB = 0.2 and once over the tabulated sample at
zCMB = 1.5, both with H0 = 70. -/
theorem dLmag_dipole_ignores_cosmology_witness :
    (sampleDipole true).USE_FLAG = true ∧
    sampleLCDM.COSPAR_LIST.H0 = sampleMap.COSPAR_LIST.H0 ∧
    dLmag sampleEnv 0.2 0.1 sampleLCDM (sampleDipole true) =
      5 * log10 ((sampleEnv.LIGHT_km * 0.1 / sampleLCDM.COSPAR_LIST.H0) *
        (1 + 1 / 2 * (1 - q_dipole sampleEnv 0.1 (sampleDipole true)) * 0.1 -
          (1 / 6) * (1 - q_dipole sampleEnv 0.1 (sampleDipole true) -
            3 * q_dipole sampleEnv 0.1 (sampleDipole true) ^ 2 + (sampleDipole true).J0) *
              0.1 ^ 2) /
        (10 * sampleEnv.PC_km)) ∧
    dLmag sampleEnv 0.2 0.1 sampleLCDM (sampleDipole true) =
      dLmag sampleEnv 1.5 0.1 sampleMap (sampleDipole true) :=
  ⟨rfl, rfl,
    dLmag_dipole_ignores_cosmology sampleEnv 0.2 1.5 0.1 sampleLCDM sampleMap
      (sampleDipole true) rfl rfl⟩

/-! ### Comoving distance within one bin count -/

/-- For a flat model with H0 not zero, Hzinv_integral(0, z) is LIGHT_km times
the sum over the N midpoints of dz / H(dz (i + 1/2)), dz = z / N, N the bin
count of z. -/
theorem Hzinv_integral_flat_sum (E : Env) (z : ℝ) (I : HzFUN_INFO_DEF)
    (hH0 : I.COSPAR_LIST.H0 ≠ 0) (hflat : I.COSPAR_LIST.OM + I.COSPAR_LIST.OL = 1) :
    Hzinv_integral E 0 z I =
      E.LIGHT_km *
        ∑ i in Finset.range (Hzinv_Nzbin E 0 z).toNat,
          z / (Hzinv_Nzbin E 0 z : ℝ) /
            Hzfun E (z / (Hzinv_Nzbin E 0 z : ℝ) * ((i : ℝ) + 1 / 2)) I := by
  rw [Hzinv_integral_flat E 0 z I hH0 hflat, sum_loop_eq_sum]
  congr 1
  apply Finset.sum_congr rfl
  intro i _
  have e : 0 + (z - 0) / (Hzinv_Nzbin E 0 z : ℝ) * ((i : ℝ) + 0.5) =
      z / (Hzinv_Nzbin E 0 z : ℝ) * ((i : ℝ) + 1 / 2) := by
    have hhalf : (0.5 : ℝ) = 1 / 2 := by norm_num
    rw [hhalf]
    ring
  rw [e]
  ring

/-- H(z) of the steep model is 70 (1 + z)^80000 for z at least 0. -/
theorem steep_Hzfun (x : ℝ) (hx : 0 ≤ x) :
    Hzfun sampleEnv x steepModel = 70 * (1 + x) ^ 80000 := by
  have h : Hzfun sampleEnv x steepModel = Hzfun_wCDM x steepModel := by
    simp [Hzfun, steepModel, analytic]
  rw [h, Hzfun_wCDM_eq]
  simp only [steepModel, analytic]
  have hp : (3 : ℝ) * (1 + 159997 / 3 + 0) = ((160000 : ℕ) : ℝ) := by norm_num
  have he : -3 * (0 : ℝ) * x / (1 + x) = 0 := by simp
  rw [hp, he, Real.rpow_natCast, Real.exp_zero]
  have e1 : ((1 + x) ^ 80000) ^ 2 = (1 + x) ^ 160000 := by
    rw [← pow_mul]
  have hsq : (0 : ℝ) * (1 + x) ^ 3 + (1 - 0 - 1) * (1 + x) ^ 2 + 1 * (1 + x) ^ 160000 * 1 =
      ((1 + x) ^ 80000) ^ 2 := by
    rw [e1]
    generalize (1 + x) ^ 160000 = P
    generalize (1 + x) ^ 3 = Q
    generalize (1 + x) ^ 2 = R
    ring
  rw [hsq, Real.sqrt_sq (by positivity)]

/-- Within one bin count the computed distance can decrease as well: for the
steep flat model, with H(z) > 0, the distances to z = 0.005 and z = 0.01 are
both computed with 10 bins and the second is the smaller. -/
theorem Hzinv_integral_same_bins_decrease :
    steepModel.COSPAR_LIST.OM + steepModel.COSPAR_LIST.OL = 1 ∧
    (∀ z : ℝ, 0 ≤ z → 0 < Hzfun sampleEnv z steepModel) ∧
    Hzinv_Nzbin sampleEnv 0 0.005 = 10 ∧ Hzinv_Nzbin sampleEnv 0 0.01 = 10 ∧
    Hzinv_integral sampleEnv 0 0.01 steepModel <
      Hzinv_integral sampleEnv 0 0.005 steepModel := by
  have hflat : steepModel.COSPAR_LIST.OM + steepModel.COSPAR_LIST.OL = 1 := by
    simp only [steepModel, analytic]
    norm_num
  have hH0 : steepModel.COSPAR_LIST.H0 ≠ 0 := by
    simp only [steepModel, analytic]
    norm_num
  have hpos : ∀ z : ℝ, 0 ≤ z → 0 < Hzfun sampleEnv z steepModel := by
    intro z hz
    rw [steep_Hzfun z hz]
    positivity
  have hN1 : Hzinv_Nzbin sampleEnv 0 0.005 = 10 := by
    have h5 : int_cast (sampleEnv.fl ((0.005 - 0) * 1000)) = 5 := by
      apply int_cast_eq _ 5 _ (by norm_num)
      · simp only [sampleEnv]
        norm_num
      · simp only [sampleEnv]
        norm_num
      · simp only [sampleEnv]
        norm_num
    unfold Hzinv_Nzbin
    simp only [h5]
    norm_num
  have hN2 : Hzinv_Nzbin sampleEnv 0 0.01 = 10 :=
    sample_Hzinv_Nzbin 0 0.01 10 (by norm_num) (by norm_num) (by norm_num) (by norm_num)
  refine ⟨hflat, hpos, hN1, hN2, ?_⟩
  rw [Hzinv_integral_flat_sum sampleEnv 0.01 steepModel hH0 hflat,
    Hzinv_integral_flat_sum sampleEnv 0.005 steepModel hH0 hflat, hN1, hN2]
  have hL : (0 : ℝ) < sampleEnv.LIGHT_km := by
    simp only [sampleEnv]
    norm_num
  apply mul_lt_mul_of_pos_left _ hL
  have e10 : (10 : ℤ).toNat = 10 := rfl
  have c10 : (((10 : ℤ)) : ℝ) = 10 := by norm_num
  rw [e10, c10]
  -- powers of the two first midpoints
  have ha : (0 : ℝ) < (1.00025 : ℝ) ^ 80000 := by positivity
  have hbern : (20 : ℝ) * (1.00025 : ℝ) ^ 80000 < (1.0005 : ℝ) ^ 80000 := by
    have h1 : (1.0005 : ℝ) = 1.00025 * (1 + 0.00025 / 1.00025) := by norm_num
    have h2 : (1 : ℝ) + (80000 : ℕ) * (0.00025 / 1.00025) ≤
        (1 + 0.00025 / 1.00025) ^ 80000 :=
      one_add_mul_le_pow (by norm_num) 80000
    have h3 : (20 : ℝ) < 1 + (80000 : ℕ) * (0.00025 / 1.00025) := by norm_num
    rw [h1, mul_pow]
    calc (20 : ℝ) * (1.00025 : ℝ) ^ 80000
        = (1.00025 : ℝ) ^ 80000 * 20 := mul_comm _ _
      _ < (1.00025 : ℝ) ^ 80000 * (1 + (80000 : ℕ) * (0.00025 / 1.00025)) :=
          mul_lt_mul_of_pos_left h3 ha
      _ ≤ (1.00025 : ℝ) ^ 80000 * (1 + 0.00025 / 1.00025) ^ 80000 :=
          mul_le_mul_of_nonneg_left h2 (le_of_lt ha)
  -- the sum of z2 is at most ten times its first term
  have hup : ∑ i in Finset.range 10,
      (0.01 : ℝ) / 10 / Hzfun sampleEnv (0.01 / 10 * ((i : ℝ) + 1 / 2)) steepModel ≤
      ∑ _i in Finset.range 10, (0.01 : ℝ) / 10 / (70 * (1.0005 : ℝ) ^ 80000) := by
    apply Finset.sum_le_sum
    intro i _
    have hx : (0 : ℝ) ≤ 0.01 / 10 * ((i : ℝ) + 1 / 2) := by positivity
    rw [steep_Hzfun _ hx]
    apply div_le_div_of_nonneg_left (by norm_num) (by positivity)
    apply mul_le_mul_of_nonneg_left _ (by norm_num)
    apply pow_le_pow_left₀ (by norm_num)
    have hi : (0 : ℝ) ≤ (i : ℝ) := Nat.cast_nonneg i
    nlinarith
  -- the sum of z1 is at least its first term
  have hlow : (0.005 : ℝ) / 10 / (70 * (1.00025 : ℝ) ^ 80000) ≤
      ∑ i in Finset.range 10,
        (0.005 : ℝ) / 10 / Hzfun sampleEnv (0.005 / 10 * ((i : ℝ) + 1 / 2)) steepModel := by
    have h0 : (0.005 : ℝ) / 10 / (70 * (1.00025 : ℝ) ^ 80000) =
        (0.005 : ℝ) / 10 / Hzfun sampleEnv (0.005 / 10 * (((0 : ℕ) : ℝ) + 1 / 2)) steepModel := by
      have hb0 : (1 : ℝ) + 0.005 / 10 * (((0 : ℕ) : ℝ) + 1 / 2) = 1.00025 := by norm_num
      rw [steep_Hzfun _ (by norm_num), hb0]
    rw [h0]
    apply Finset.single_le_sum
      (f := fun i : ℕ =>
        (0.005 : ℝ) / 10 / Hzfun sampleEnv (0.005 / 10 * ((i : ℝ) + 1 / 2)) steepModel)
    · intro i _
      have hx : (0 : ℝ) ≤ 0.005 / 10 * ((i : ℝ) + 1 / 2) := by positivity
      have := hpos _ hx
      positivity
    · simp
  refine lt_of_le_of_lt hup (lt_of_lt_of_le ?_ hlow)
  rw [Finset.sum_const, Finset.card_range, nsmul_eq_mul]
  have h10 : (((10 : ℕ)) : ℝ) = 10 := by norm_num
  rw [h10]
  have key : ∀ A B : ℝ, 0 < A → 20 * A < B →
      10 * ((0.01 : ℝ) / 10 / (70 * B)) < (0.005 : ℝ) / 10 / (70 * A) := by
    intro A B hA hAB
    have hB : 0 < B := by nlinarith
    rw [div_div, div_div, ← mul_div_assoc, div_lt_div_iff₀ (by positivity) (by positivity)]
    nlinarith
  exact key _ _ ha hbern

end SNANA
